import Mathlib

/-!
# posix_spawn worker: launch, capture and reap

A shallow embedding of `src/posix_spawn.cc` (class `PosixSpawnWorker`).

The worker talks to the operating system through `pipe`, `posix_spawnp`,
`close`, `select`, `read`, `malloc`, `realloc` and `waitpid`.  The embedding
makes every answer of the operating system an explicit input (`Env`) and every
call an explicit output (`Event`), so that `Execute` becomes a total function
from the answers of the system to the final fields of the worker together with
the trace of the calls it made.

Conventions.
* `size_t` counters (`stdout_len`, `stdout_ptr`, ...) are natural numbers: they
  are bounded by the size of a live allocation, far below `2 ^ 64`.
* `malloc` and `realloc` are assumed to succeed, as the source assumes.
* A file descriptor is named by the pipe end it was created for; `Env.fdnum`
  gives its number, which indexes the bitmaps of `fd_set` and gives `nfds`.
* An `fd_set` has `FD_SETSIZE` bits and its macros do not check the descriptor
  they are given: `FdSet` is the memory of the variable followed by the bits
  after it, which `FD_ZERO` does not clear.  The properties that depend on the
  descriptor sets assume `FdsValid`: the descriptors are distinct and below
  `FD_SETSIZE`.
-/

namespace PosixSpawn

/-! ## Constants and helpers of the source -/

/-- A byte of captured output. -/
abbrev Byte := Nat

/-- Source line 13. -/
def MIN_BUFFER_FREE_SPACE : Nat := 4096

/-- Source lines 15-17. -/
def max (a b : Int) : Int := if a > b then a else b

/-- Index of a pipe end, source lines 10-11. -/
inductive Dir where
  | READ
  | WRITE
  deriving DecidableEq, Repr

/-- The three pipes of source line 44. -/
inductive PipeId where
  | stdin
  | stdout
  | stderr
  deriving DecidableEq, Repr

/-- A pipe end held by the parent, such as `stdout_pipe[READ]`. -/
structure Fd where
  pipe : PipeId
  dir : Dir
  deriving DecidableEq, Repr

open Dir

/-- The descriptor `stdin_pipe[d]`. -/
def stdin_pipe (d : Dir) : Fd := ⟨PipeId.stdin, d⟩

/-- The descriptor `stdout_pipe[d]`. -/
def stdout_pipe (d : Dir) : Fd := ⟨PipeId.stdout, d⟩

/-- The descriptor `stderr_pipe[d]`. -/
def stderr_pipe (d : Dir) : Fd := ⟨PipeId.stderr, d⟩

/-! ## Descriptor sets (`fd_set`) -/

/-- Number of bits of an `fd_set`: `FD_SETSIZE` of `sys/select.h`. -/
def FD_SETSIZE : Nat := 1024

/-- The memory of an `fd_set` variable and of what follows it, bit by bit.  The
bits below `FD_SETSIZE` are the variable; the macros index the bitmap by the raw
descriptor number without checking it, so a descriptor at or above `FD_SETSIZE`
names a bit after the variable. -/
abbrev FdSet := Nat → Bool

/-- Number of bits of one word of an `fd_set`: `NFDBITS` of `sys/select.h`,
the size of a `long`. -/
def NFDBITS : Nat := 64

/-- The macro `FD_ZERO`: clears the `FD_SETSIZE` bits of the variable and
leaves the bits after it as they are. -/
def FD_ZERO (s : FdSet) : FdSet := fun n => if n < FD_SETSIZE then false else s n

/-- The macro `FD_SET`, on a descriptor number. -/
def FD_SET (fd : Nat) (s : FdSet) : FdSet := fun n => if n = fd then true else s n

/-- The macro `FD_CLR`, on a descriptor number. -/
def FD_CLR (fd : Nat) (s : FdSet) : FdSet := fun n => if n = fd then false else s n

/-- The macro `FD_ISSET`, on a descriptor number. -/
def FD_ISSET (fd : Nat) (s : FdSet) : Bool := s fd

/-- The six pipe ends. -/
def allFds : List Fd :=
  [stdin_pipe READ, stdin_pipe WRITE, stdout_pipe READ, stdout_pipe WRITE,
   stderr_pipe READ, stderr_pipe WRITE]

/-- The pipe ends whose bit is set in a descriptor set, for the trace. -/
def members (fdnum : Fd → Nat) (s : FdSet) : List Fd := allFds.filter fun fd => s (fdnum fd)

/-- The first `nfds` bits of a descriptor set: the part `select` looks at. -/
def firstBits (nfds : Int) (s : FdSet) : FdSet := fun n => decide ((n : Int) < nfds) && s n

/-! ## Answers of the operating system -/

/-- The answer to one `read` call: either a chunk of bytes (the return value is
its length) or the non-positive return value `-n` (`n = 0` is end of stream). -/
inductive ReadResult where
  | chunk (bytes : List Byte)
  | stop (n : Nat)
  deriving DecidableEq, Repr

/-- The return value of `read`. -/
def ReadResult.rc : ReadResult → Int
  | ReadResult.chunk bytes => (bytes.length : Int)
  | ReadResult.stop n => -(n : Int)

/-- The bytes the kernel has for the caller. -/
def ReadResult.bytes : ReadResult → List Byte
  | ReadResult.chunk bytes => bytes
  | ReadResult.stop _ => []

/-- The answer to one `select` call: its return value and the descriptors the
kernel found readable. -/
structure SelectResult where
  rc : Int
  ready : List Fd
  deriving DecidableEq, Repr

/-- Everything the operating system answers during one run of the worker. -/
structure Env where
  /-- Return value of `pipe` for each of the three pipes (0 is success). -/
  pipe_rc : PipeId → Int
  /-- Number of each created descriptor. -/
  fdnum : Fd → Nat
  /-- Return value of `posix_spawnp` (0 is success). -/
  spawn_rc : Int
  /-- Answers of the successive `select` calls; after the last one `select`
  blocks for ever. -/
  selects : List SelectResult
  /-- Answers of the successive `read` calls on `stdout_pipe[READ]`; after the
  last one the pipe is at end of stream. -/
  stdout_reads : List ReadResult
  /-- Answers of the successive `read` calls on `stderr_pipe[READ]`. -/
  stderr_reads : List ReadResult
  /-- Wait status stored by `waitpid`. -/
  status : Nat
  /-- Content of the memory where `rfds_active` is allotted, and of what
  follows it, before the variable is initialised. -/
  stack_active : FdSet
  /-- Content of the memory where `rfds` is allotted, and of what follows it,
  before the variable is initialised. -/
  stack : FdSet

/-! ## Calls made by the worker -/

/-- One call of the worker to the system or to its base class.  A `read` is
recorded with the offset of its target in the buffer, its count and its
answer; an allocation with the buffer it is for. -/
inductive Event where
  | pipe (p : PipeId) (rc : Int)
  | posix_spawnp (rc : Int)
  | SetErrorMessage (msg : String)
  | close (fd : Fd)
  | malloc (p : PipeId) (size : Nat)
  | select (nfds : Int) (watched : List Fd) (ret : Option (Int × List Fd))
  | read (fd : Fd) (off count : Nat) (res : ReadResult)
  | realloc (p : PipeId) (size : Nat)
  | waitpid
  deriving DecidableEq, Repr

/-! ## Buffers -/

/-- One capture buffer of the worker: `stdout_buf`, `stdout_len`, `stdout_ptr`
(or the three `stderr_` fields). -/
structure Stream where
  buf : List Byte
  len : Nat
  ptr : Nat
  deriving DecidableEq, Repr

/-- Memory returned by `malloc n`; its content is unspecified, here zero. -/
def malloc (n : Nat) : List Byte := List.replicate n 0

/-- Memory returned by `realloc buf n`: the old content up to the smaller of
both sizes, then unspecified bytes, here zero. -/
def realloc (buf : List Byte) (n : Nat) : List Byte :=
  buf.take n ++ List.replicate (n - buf.length) 0

/-- Effect of `read(fd, &buf[off], count)` on the memory of the buffer when the
kernel has `bytes` for the caller: at most `count` bytes are copied to offset
`off`. -/
def store (buf : List Byte) (off count : Nat) (bytes : List Byte) : List Byte :=
  buf.take off ++ bytes.take count ++ buf.drop (off + (bytes.take count).length)

/-- The next answer of a pipe and the answers left: an exhausted pipe is at end
of stream. -/
def sysRead : List ReadResult → ReadResult × List ReadResult
  | [] => (ReadResult.stop 0, [])
  | r :: rs => (r, rs)

/-- Source lines 122-124 (and 133-135): a positive read of `res` at the used
length, then the regrowth of the buffer. -/
def Stream.grow (s : Stream) (res : ReadResult) : Stream :=
  let ptr := s.ptr + res.rc.toNat
  let len := ptr + MIN_BUFFER_FREE_SPACE
  { buf := realloc (store s.buf s.ptr (s.len - s.ptr) res.bytes) len, len := len, ptr := ptr }

/-! ## The multiplexer loop -/

/-- The variables of the loop of `Execute`. -/
structure LoopState where
  stdout : Stream
  stderr : Stream
  rfds_active : FdSet
  /-- Answers the stdout pipe still has to give. -/
  stdout_reads : List ReadResult
  /-- Answers the stderr pipe still has to give. -/
  stderr_reads : List ReadResult

/-- Source lines 120-128: `stdout_pipe[READ]` was reported readable. -/
def readStdout (fdnum : Fd → Nat) (st : LoopState) : LoopState × List Event :=
  let count := st.stdout.len - st.stdout.ptr
  let res := (sysRead st.stdout_reads).1
  if res.rc > 0 then
    ({ st with stdout := st.stdout.grow res, stdout_reads := (sysRead st.stdout_reads).2 },
      [Event.read (stdout_pipe READ) st.stdout.ptr count res,
       Event.realloc PipeId.stdout (st.stdout.grow res).len])
  else
    ({ st with rfds_active := FD_CLR (fdnum (stdout_pipe READ)) st.rfds_active,
               stdout_reads := (sysRead st.stdout_reads).2 },
      [Event.read (stdout_pipe READ) st.stdout.ptr count res, Event.close (stdout_pipe READ)])

/-- Source lines 131-139: `stderr_pipe[READ]` was reported readable. -/
def readStderr (fdnum : Fd → Nat) (st : LoopState) : LoopState × List Event :=
  let count := st.stderr.len - st.stderr.ptr
  let res := (sysRead st.stderr_reads).1
  if res.rc > 0 then
    ({ st with stderr := st.stderr.grow res, stderr_reads := (sysRead st.stderr_reads).2 },
      [Event.read (stderr_pipe READ) st.stderr.ptr count res,
       Event.realloc PipeId.stderr (st.stderr.grow res).len])
  else
    ({ st with rfds_active := FD_CLR (fdnum (stderr_pipe READ)) st.rfds_active,
               stderr_reads := (sysRead st.stderr_reads).2 },
      [Event.read (stderr_pipe READ) st.stderr.ptr count res, Event.close (stderr_pipe READ)])

/-- Source lines 97-109: the set to observe and `nfds`, from `rfds_active` and
the memory `rfds0` of the variable `rfds`. -/
def watch (fdnum : Fd → Nat) (rfds_active rfds0 : FdSet) : FdSet × Int :=
  let nfds : Int := -1
  let rfds := FD_ZERO rfds0
  let s1 : FdSet × Int :=
    if FD_ISSET (fdnum (stdout_pipe READ)) rfds_active then
      (FD_SET (fdnum (stdout_pipe READ)) rfds, max nfds (fdnum (stdout_pipe READ)))
    else (rfds, nfds)
  if FD_ISSET (fdnum (stderr_pipe READ)) rfds_active then
    (FD_SET (fdnum (stderr_pipe READ)) s1.1, max s1.2 (fdnum (stderr_pipe READ)))
  else s1

/-- The set `rfds` after `select (nfds, &rfds, ...)` returned.  The kernel
copies the set in and out in whole words: among the first `nfds` bits it keeps
those of the descriptors it found readable, it clears the rest of the last word
it copies, and it does not touch the words after it. -/
def sysSelect (fdnum : Fd → Nat) (r : SelectResult) (nfds : Int) (rfds : FdSet) : FdSet :=
  fun n =>
    if (n : Int) < nfds then rfds n && decide (n ∈ r.ready.map fdnum)
    else if (n : Int) < NFDBITS * ((nfds + (NFDBITS - 1 : Nat)) / NFDBITS) then false
    else rfds n

/-- Source line 115: the set `rfds` after `select` answered `r`, where `mem` is
the memory of the variable `rfds` as the iteration finds it. -/
def selected (fdnum : Fd → Nat) (r : SelectResult) (mem : FdSet) (st : LoopState) : FdSet :=
  sysSelect fdnum r ((watch fdnum st.rfds_active mem).2 + 1) (watch fdnum st.rfds_active mem).1

/-- Source lines 118-140: the reads of one iteration whose `select` returned a
positive value and left `rfds`. -/
def iteration (fdnum : Fd → Nat) (rfds : FdSet) (st : LoopState) :
    LoopState × List Event :=
  let s1 :=
    if FD_ISSET (fdnum (stdout_pipe READ)) rfds then readStdout fdnum st else (st, [])
  let s2 :=
    if FD_ISSET (fdnum (stderr_pipe READ)) rfds then readStderr fdnum s1.1 else (s1.1, [])
  (s2.1, s1.2 ++ s2.2)

/-- The result of the loop: final variables, calls made, and whether the loop
was left (`false`: a `select` never returned). -/
structure LoopResult where
  st : LoopState
  events : List Event
  returned : Bool

/-- The `select` call of one iteration as it appears in the trace: `nfds`, the
pipe ends whose bit is set among the first `nfds` bits, and the answer. -/
def selectEvent (fdnum : Fd → Nat) (mem : FdSet) (st : LoopState) (r : Option SelectResult) :
    Event :=
  Event.select ((watch fdnum st.rfds_active mem).2 + 1)
    (members fdnum (firstBits ((watch fdnum st.rfds_active mem).2 + 1)
      (watch fdnum st.rfds_active mem).1))
    (r.map fun r => (r.rc,
      members fdnum (firstBits ((watch fdnum st.rfds_active mem).2 + 1)
        (selected fdnum r mem st))))

/-- Source lines 96-141: the loop, driven by the answers of `select`.  The
variable `rfds` of the loop body is not initialised: each iteration finds in
its memory `mem` what the iteration before left there. -/
def loop (fdnum : Fd → Nat) : List SelectResult → FdSet → LoopState → LoopResult
  | [], mem, st =>
    if (watch fdnum st.rfds_active mem).2 = -1 then ⟨st, [], true⟩
    else ⟨st, [selectEvent fdnum mem st none], false⟩
  | r :: rest, mem, st =>
    if (watch fdnum st.rfds_active mem).2 = -1 then ⟨st, [], true⟩
    else if r.rc ≤ 0 then ⟨st, [selectEvent fdnum mem st (some r)], true⟩
    else
      let it := iteration fdnum (selected fdnum r mem st) st
      let res := loop fdnum rest (selected fdnum r mem st) it.1
      ⟨res.st, selectEvent fdnum mem st (some r) :: (it.2 ++ res.events), res.returned⟩

/-! ## The worker -/

/-- The fields of `PosixSpawnWorker` that `Execute` writes. -/
structure Worker where
  stdout : Stream
  stderr : Stream
  status : Nat
  deriving DecidableEq, Repr

/-- What one run of `Execute` leaves behind. -/
structure Run where
  /-- Fields of the worker. -/
  w : Worker
  /-- Error message of the base class (`none` on construction). -/
  error : Option String
  /-- Calls made, in order. -/
  trace : List Event
  /-- The set `rfds_active` when the loop was left. -/
  rfds_active : FdSet
  /-- Whether `Execute` returned. -/
  returned : Bool

/-- Source line 50: the three `pipe` calls, joined by `||`. -/
def createPipes (env : Env) : List Event × Bool :=
  if env.pipe_rc PipeId.stdin ≠ 0 then
    ([Event.pipe PipeId.stdin (env.pipe_rc PipeId.stdin)], false)
  else if env.pipe_rc PipeId.stdout ≠ 0 then
    ([Event.pipe PipeId.stdin (env.pipe_rc PipeId.stdin),
      Event.pipe PipeId.stdout (env.pipe_rc PipeId.stdout)], false)
  else if env.pipe_rc PipeId.stderr ≠ 0 then
    ([Event.pipe PipeId.stdin (env.pipe_rc PipeId.stdin),
      Event.pipe PipeId.stdout (env.pipe_rc PipeId.stdout),
      Event.pipe PipeId.stderr (env.pipe_rc PipeId.stderr)], false)
  else
    ([Event.pipe PipeId.stdin (env.pipe_rc PipeId.stdin),
      Event.pipe PipeId.stdout (env.pipe_rc PipeId.stdout),
      Event.pipe PipeId.stderr (env.pipe_rc PipeId.stderr)], true)

/-- Source lines 76-88: the calls of the parent between the spawn and the
loop. -/
def setupEvents : List Event :=
  [Event.close (stdin_pipe WRITE), Event.close (stdin_pipe READ),
   Event.close (stdout_pipe WRITE), Event.close (stderr_pipe WRITE),
   Event.malloc PipeId.stdout MIN_BUFFER_FREE_SPACE,
   Event.malloc PipeId.stderr MIN_BUFFER_FREE_SPACE]

/-- Source lines 82-93: the variables of the loop on entry. -/
def initLoop (env : Env) : LoopState :=
  { stdout := { buf := malloc MIN_BUFFER_FREE_SPACE, len := MIN_BUFFER_FREE_SPACE, ptr := 0 },
    stderr := { buf := malloc MIN_BUFFER_FREE_SPACE, len := MIN_BUFFER_FREE_SPACE, ptr := 0 },
    rfds_active := FD_SET (env.fdnum (stderr_pipe READ))
      (FD_SET (env.fdnum (stdout_pipe READ)) (FD_ZERO env.stack_active)),
    stdout_reads := env.stdout_reads,
    stderr_reads := env.stderr_reads }

/-- Source lines 42-145: `PosixSpawnWorker::Execute` on a worker whose fields
hold `w` (they are not initialised by the constructor). -/
def Execute (w : Worker) (env : Env) : Run :=
  if (createPipes env).2 = false then
    { w := w, error := some "Cannot create pipes",
      trace := (createPipes env).1 ++ [Event.SetErrorMessage "Cannot create pipes"],
      rfds_active := env.stack_active, returned := true }
  else if env.spawn_rc ≠ 0 then
    { w := w, error := some "Spawn failed",
      trace := (createPipes env).1 ++
        [Event.posix_spawnp env.spawn_rc, Event.SetErrorMessage "Spawn failed"],
      rfds_active := env.stack_active, returned := true }
  else
    let res := loop env.fdnum env.selects env.stack (initLoop env)
    { w := { stdout := res.st.stdout, stderr := res.st.stderr,
             status := if res.returned then env.status else w.status },
      error := none,
      trace := (createPipes env).1 ++ [Event.posix_spawnp env.spawn_rc] ++ setupEvents ++
        res.events ++ (if res.returned then [Event.waitpid] else []),
      rfds_active := res.st.rfds_active,
      returned := res.returned }

/-- Modelled from the spec: the system macro `WEXITSTATUS` of `sys/wait.h`,
which is not part of the repository; it extracts the exit code, the bits 8 to
15 of the wait status: `(status & 0xff00) >> 8`. -/
def WEXITSTATUS (status : Nat) : Nat := (status &&& 0xff00) >>> 8

/-- The four arguments `HandleOKCallback` passes to the completion handler. -/
structure CallbackArgs where
  error : Option String
  exitCode : Nat
  stdout : List Byte
  stderr : List Byte
  deriving DecidableEq, Repr

/-- Source lines 147-161: `PosixSpawnWorker::HandleOKCallback`. -/
def HandleOKCallback (w : Worker) : CallbackArgs :=
  { error := none,
    exitCode := WEXITSTATUS w.status,
    stdout := w.stdout.buf.take w.stdout.ptr,
    stderr := w.stderr.buf.take w.stderr.ptr }

/-! ## Sample runs -/

/-- A worker before `Execute`. -/
def w0 : Worker :=
  { stdout := { buf := [], len := 0, ptr := 0 }, stderr := { buf := [], len := 0, ptr := 0 },
    status := 0 }

/-- Descriptor numbers as a fresh process would get them. -/
def fdnum0 : Fd → Nat
  | ⟨PipeId.stdin, READ⟩ => 3
  | ⟨PipeId.stdin, WRITE⟩ => 4
  | ⟨PipeId.stdout, READ⟩ => 5
  | ⟨PipeId.stdout, WRITE⟩ => 6
  | ⟨PipeId.stderr, READ⟩ => 7
  | ⟨PipeId.stderr, WRITE⟩ => 8

/-- Both read ends readable. -/
def bothReady : SelectResult := ⟨2, [stdout_pipe READ, stderr_pipe READ]⟩

/-- A child that writes "hi" to stdout, "e" to stderr and exits with code 42. -/
def envHello : Env :=
  { pipe_rc := fun _ => 0, fdnum := fdnum0, spawn_rc := 0,
    selects := [⟨1, [stdout_pipe READ]⟩, bothReady, ⟨1, [stderr_pipe READ]⟩],
    stdout_reads := [ReadResult.chunk [104, 105], ReadResult.stop 0],
    stderr_reads := [ReadResult.chunk [101], ReadResult.stop 0],
    status := 42 * 256, stack_active := fun _ => false,
    stack := fun _ => false }

/-- A run in which `select` fails at once (interrupted by a signal). -/
def envSelectFails : Env :=
  { pipe_rc := fun _ => 0, fdnum := fdnum0, spawn_rc := 0,
    selects := [⟨-1, []⟩],
    stdout_reads := [ReadResult.chunk [104, 105], ReadResult.stop 0],
    stderr_reads := [ReadResult.stop 0],
    status := 0, stack_active := fun _ => false,
    stack := fun _ => false }

/-- A run in which `posix_spawnp` fails with `EAGAIN`. -/
def envSpawnFails : Env :=
  { pipe_rc := fun _ => 0, fdnum := fdnum0, spawn_rc := 11,
    selects := [], stdout_reads := [], stderr_reads := [], status := 0,
    stack_active := fun _ => false,
    stack := fun _ => false }

/-- The descriptors of the six pipe ends are below `FD_SETSIZE` and distinct,
as `pipe` returns them in a process that has fewer than `FD_SETSIZE` open
descriptors. -/
def FdsValid (fdnum : Fd → Nat) : Prop :=
  (∀ fd ∈ allFds, fdnum fd < FD_SETSIZE) ∧ (allFds.map fdnum).Nodup

instance (fdnum : Fd → Nat) : Decidable (FdsValid fdnum) := by
  unfold FdsValid
  infer_instance

/-- One of the three `pipe` calls fails. -/
def PipesFail (env : Env) : Prop :=
  env.pipe_rc PipeId.stdin ≠ 0 ∨ env.pipe_rc PipeId.stdout ≠ 0 ∨ env.pipe_rc PipeId.stderr ≠ 0

instance (env : Env) : Decidable (PipesFail env) := by
  unfold PipesFail
  infer_instance

/-- The pipes are created and the child is spawned. -/
def Launched (env : Env) : Prop := ¬ PipesFail env ∧ env.spawn_rc = 0

instance (env : Env) : Decidable (Launched env) := by
  unfold Launched
  infer_instance

/-- The error messages set during a run, in order. -/
def errorsSet (t : List Event) : List String :=
  t.filterMap fun e => match e with
    | Event.SetErrorMessage msg => some msg
    | _ => none

/-- Number of `close` calls on a descriptor. -/
def closes (fd : Fd) (t : List Event) : Nat := t.count (Event.close fd)

/-- The bytes returned by the reads on a descriptor, read by read. -/
def chunksRead (fd : Fd) (t : List Event) : List (List Byte) :=
  t.filterMap fun e => match e with
    | Event.read fd1 _ _ res => if fd1 = fd then some res.bytes else none
    | _ => none

/-- A `read` event whose answer is at most the count given. -/
def Event.withinCount (e : Event) : Prop :=
  match e with
  | Event.read _ _ count res => res.rc ≤ (count : Int)
  | _ => True

instance (e : Event) : Decidable e.withinCount := by
  unfold Event.withinCount
  cases e <;> infer_instance

/-- The contract of `read`: no call returned more than the count it was given. -/
def ReadsWithinCount (t : List Event) : Prop := ∀ e ∈ t, e.withinCount

instance (t : List Event) : Decidable (ReadsWithinCount t) := by
  unfold ReadsWithinCount
  infer_instance

/-- The bytes a pipe delivers before its first non-positive answer. -/
def beforeStop : List ReadResult → List Byte
  | [] => []
  | r :: rs => if r.rc > 0 then r.bytes ++ beforeStop rs else []

/-- The descriptor an event reads, closes or waits on. -/
def Event.uses (e : Event) (fd : Fd) : Prop :=
  match e with
  | Event.close fd1 => fd1 = fd
  | Event.read fd1 _ _ _ => fd1 = fd
  | Event.select _ watched _ => fd ∈ watched
  | _ => False

instance (e : Event) (fd : Fd) : Decidable (e.uses fd) := by
  unfold Event.uses
  cases e <;> infer_instance

/-- The calls the loop can make. -/
def Event.ofLoop (e : Event) : Prop :=
  match e with
  | Event.select _ _ _ => True
  | Event.read fd _ _ _ => fd = stdout_pipe READ ∨ fd = stderr_pipe READ
  | Event.realloc _ _ => True
  | Event.close fd => fd = stdout_pipe READ ∨ fd = stderr_pipe READ
  | _ => False

/-- No read end is left in `rfds_active`: the test of source line 112. -/
def LoopState.idle (fdnum : Fd → Nat) (st : LoopState) : Prop :=
  st.rfds_active (fdnum (stdout_pipe READ)) = false ∧
    st.rfds_active (fdnum (stderr_pipe READ)) = false

/-- A `select` call that returned a value satisfying `p`. -/
def Event.selectReturned (p : Int → Prop) (e : Event) : Prop :=
  match e with
  | Event.select _ _ (some ret) => p ret.1
  | _ => False

instance (p : Int → Prop) [DecidablePred p] (e : Event) :
    Decidable (e.selectReturned p) := by
  unfold Event.selectReturned
  cases e <;> try infer_instance
  rename_i ret
  cases ret <;> infer_instance

/-- The calls of the loop other than `select`. -/
def Event.ofRead (e : Event) : Prop :=
  match e with
  | Event.read _ _ _ _ => True
  | Event.realloc _ _ => True
  | Event.close _ => True
  | _ => False

/-- Only read ends can be in `rfds_active`. -/
def LoopState.onlyReadEnds (fdnum : Fd → Nat) (st : LoopState) : Prop :=
  ∀ fd, st.rfds_active (fdnum fd) = true → fd = stdout_pipe READ ∨ fd = stderr_pipe READ

/-- The invariant of a buffer between two reads: the allocation has the
recorded capacity and the free space is exactly the minimum. -/
def Stream.Slack (s : Stream) : Prop :=
  s.buf.length = s.len ∧ s.len = s.ptr + MIN_BUFFER_FREE_SPACE

/-- The bytes captured so far in a buffer. -/
def Stream.captured (s : Stream) : List Byte := s.buf.take s.ptr

/-- The bytes captured so far followed by what the pipe has yet to deliver
before its first non-positive answer, while the stream is open. -/
def Stream.total (s : Stream) (active : Bool) (reads : List ReadResult) : List Byte :=
  s.captured ++ if active then beforeStop reads else []

/-- The answers of the reads made on a descriptor, in order. -/
def readsOn (fd : Fd) (t : List Event) : List ReadResult :=
  t.filterMap fun e => match e with
    | Event.read fd1 _ _ res => if fd1 = fd then some res else none
    | _ => none

/-- A run like `envHello` in which stderr is served first and delivers other
bytes in other chunks. -/
def envHello2 : Env :=
  { pipe_rc := fun _ => 0, fdnum := fdnum0, spawn_rc := 0,
    selects := [⟨1, [stderr_pipe READ]⟩, ⟨1, [stderr_pipe READ]⟩, ⟨1, [stderr_pipe READ]⟩,
      ⟨1, [stdout_pipe READ]⟩, ⟨1, [stdout_pipe READ]⟩],
    stdout_reads := [ReadResult.chunk [104, 105], ReadResult.stop 0],
    stderr_reads := [ReadResult.chunk [1], ReadResult.chunk [2, 3], ReadResult.stop 1],
    status := 0, stack_active := fun _ => false,
    stack := fun _ => false }

/-- Both buffers satisfy the invariant. -/
def LoopState.Slack (st : LoopState) : Prop := st.stdout.Slack ∧ st.stderr.Slack

/-- The four pipe ends the parent closes right after the spawn. -/
def unusedEnds : List Fd :=
  [stdin_pipe WRITE, stdin_pipe READ, stdout_pipe WRITE, stderr_pipe WRITE]

/-- A `select` call that returned. -/
def Event.returnedSelect (e : Event) : Prop :=
  match e with
  | Event.select _ _ (some _) => True
  | _ => False

instance (e : Event) : Decidable e.returnedSelect := by
  unfold Event.returnedSelect
  cases e <;> try infer_instance
  rename_i ret
  cases ret <;> infer_instance

/-- A `select` call that returned a positive value and left at least one
descriptor marked readable: the start of a reading iteration. -/
def Event.readingSelect (e : Event) : Prop :=
  match e with
  | Event.select _ _ (some ret) => 0 < ret.1 ∧ ret.2 ≠ []
  | _ => False

instance (e : Event) : Decidable e.readingSelect := by
  unfold Event.readingSelect
  cases e <;> try infer_instance
  rename_i ret
  cases ret <;> infer_instance

/-- Number of reading iterations in a trace. -/
def readingIterations (t : List Event) : Nat := t.countP fun e => decide e.readingSelect

/-- Number of positive answers in the answers of a pipe. -/
def positives (rs : List ReadResult) : Nat := rs.countP fun r => decide (0 < r.rc)

/-- Number of positive answers of a pipe before its first non-positive one. -/
def pendingReads : List ReadResult → Nat
  | [] => 0
  | r :: rs => if r.rc > 0 then pendingReads rs + 1 else 0

/-- Reads a stream can still take: its pending positive answers and the
non-positive one that ends it, while it is in the open set. -/
def readsLeft (active : Bool) (rs : List ReadResult) : Nat :=
  if active then pendingReads rs + 1 else 0

/-- Reads the loop can still take on both streams. -/
def LoopState.readsLeft (fdnum : Fd → Nat) (st : LoopState) : Nat :=
  PosixSpawn.readsLeft (st.rfds_active (fdnum (stdout_pipe READ))) st.stdout_reads +
    PosixSpawn.readsLeft (st.rfds_active (fdnum (stderr_pipe READ))) st.stderr_reads

/-- Number of `select` calls that returned. -/
def returnedSelects (t : List Event) : Nat := t.countP fun e => decide e.returnedSelect


/-! ## Basic facts on descriptor sets and on the observed set -/

theorem mem_allFds (fd : Fd) : fd ∈ allFds := by
  rcases fd with ⟨p, d⟩
  cases p <;> cases d <;> simp [allFds, stdin_pipe, stdout_pipe, stderr_pipe]

theorem mem_members (fdnum : Fd → Nat) (s : FdSet) (fd : Fd) :
    fd ∈ members fdnum s ↔ s (fdnum fd) = true := by
  simp [members, mem_allFds]

theorem fdsValid_lt (fdnum : Fd → Nat) (hv : FdsValid fdnum) (fd : Fd) :
    fdnum fd < FD_SETSIZE :=
  hv.1 fd (mem_allFds fd)

theorem fdsValid_inj (fdnum : Fd → Nat) (hv : FdsValid fdnum) (a b : Fd)
    (h : fdnum a = fdnum b) : a = b :=
  List.inj_on_of_nodup_map hv.2 (mem_allFds a) (mem_allFds b) h

theorem fdsValid_ne (fdnum : Fd → Nat) (hv : FdsValid fdnum) :
    fdnum (stdout_pipe READ) ≠ fdnum (stderr_pipe READ) := by
  intro h
  have := fdsValid_inj fdnum hv _ _ h
  simp [stdout_pipe, stderr_pipe] at this

theorem max_neg_one (n : Nat) : max (-1) (n : Int) = (n : Int) := by
  unfold max
  split_ifs with h
  · omega
  · rfl

theorem max_nat_nat (a b : Nat) : ∃ c : Nat, max (a : Int) (b : Int) = (c : Int) := by
  unfold max
  split_ifs
  · exact ⟨a, rfl⟩
  · exact ⟨b, rfl⟩

/-- The test `nfds == -1` of source line 112 holds exactly when the bit of
neither read end is set in `rfds_active`. -/
theorem watch_nfds (fdnum : Fd → Nat) (a r0 : FdSet) :
    (watch fdnum a r0).2 = -1 ↔
      a (fdnum (stdout_pipe READ)) = false ∧ a (fdnum (stderr_pipe READ)) = false := by
  obtain ⟨c, hc⟩ := max_nat_nat (fdnum (stdout_pipe READ)) (fdnum (stderr_pipe READ))
  have h1 := max_neg_one (fdnum (stdout_pipe READ))
  have h2 := max_neg_one (fdnum (stderr_pipe READ))
  unfold watch FD_ISSET
  cases ho : a (fdnum (stdout_pipe READ)) <;> cases he : a (fdnum (stderr_pipe READ)) <;>
    simp [h1, h2, hc]

/-- With valid descriptors, the bits of pipe ends set in the set given to
`select` are exactly those of the read ends still in `rfds_active`. -/
theorem watch_rfds (fdnum : Fd → Nat) (hv : FdsValid fdnum) (a r0 : FdSet) (fd : Fd) :
    (watch fdnum a r0).1 (fdnum fd) = true ↔
      (fd = stdout_pipe READ ∨ fd = stderr_pipe READ) ∧ a (fdnum fd) = true := by
  have hlt := fdsValid_lt fdnum hv fd
  have ho : fdnum fd = fdnum (stdout_pipe READ) ↔ fd = stdout_pipe READ :=
    ⟨fdsValid_inj fdnum hv _ _, fun h => by rw [h]⟩
  have he : fdnum fd = fdnum (stderr_pipe READ) ↔ fd = stderr_pipe READ :=
    ⟨fdsValid_inj fdnum hv _ _, fun h => by rw [h]⟩
  unfold watch FD_ISSET FD_SET FD_ZERO
  cases h1 : a (fdnum (stdout_pipe READ)) <;> cases h2 : a (fdnum (stderr_pipe READ)) <;>
    by_cases h3 : fd = stdout_pipe READ <;> by_cases h4 : fd = stderr_pipe READ <;>
    simp_all

theorem sysSelect_sub (fdnum : Fd → Nat) (r : SelectResult) (nfds : Int) (s : FdSet) (n : Nat)
    (h : sysSelect fdnum r nfds s n = true) : s n = true := by
  unfold sysSelect at h
  split_ifs at h
  · simp at h
    exact h.1
  · exact h

/-- With valid descriptors, the pipe ends `select` leaves marked are read ends
of the open set. -/
theorem selected_sub (fdnum : Fd → Nat) (hv : FdsValid fdnum) (r : SelectResult)
    (mem : FdSet) (st : LoopState) (fd : Fd) (h : selected fdnum r mem st (fdnum fd) = true) :
    (fd = stdout_pipe READ ∨ fd = stderr_pipe READ) ∧ st.rfds_active (fdnum fd) = true :=
  (watch_rfds fdnum hv _ _ fd).1 (sysSelect_sub fdnum r _ _ _ h)
/-! ## The launch -/

theorem createPipes_ok (env : Env) : (createPipes env).2 = true ↔ ¬ PipesFail env := by
  unfold createPipes PipesFail
  split_ifs <;> simp_all

theorem createPipes_events (env : Env) (h : ¬ PipesFail env) :
    (createPipes env).1 =
      [Event.pipe PipeId.stdin 0, Event.pipe PipeId.stdout 0, Event.pipe PipeId.stderr 0] := by
  unfold PipesFail at h
  unfold createPipes
  split_ifs <;> simp_all

theorem createPipes_no_error (env : Env) : errorsSet (createPipes env).1 = [] := by
  unfold createPipes
  split_ifs <;> simp [errorsSet]

/-- The run of a launched worker, written out. -/
theorem Execute_launched (w : Worker) (env : Env) (h : Launched env) :
    Execute w env =
      { w := { stdout := (loop env.fdnum env.selects env.stack (initLoop env)).st.stdout,
               stderr := (loop env.fdnum env.selects env.stack (initLoop env)).st.stderr,
               status := if (loop env.fdnum env.selects env.stack (initLoop env)).returned
                           then env.status else w.status },
        error := none,
        trace := [Event.pipe PipeId.stdin 0, Event.pipe PipeId.stdout 0,
            Event.pipe PipeId.stderr 0, Event.posix_spawnp 0] ++ setupEvents ++
          (loop env.fdnum env.selects env.stack (initLoop env)).events ++
          (if (loop env.fdnum env.selects env.stack (initLoop env)).returned then
            [Event.waitpid] else []),
        rfds_active := (loop env.fdnum env.selects env.stack (initLoop env)).st.rfds_active,
        returned := (loop env.fdnum env.selects env.stack (initLoop env)).returned } := by
  have h1 := (createPipes_ok env).2 h.1
  have h2 := createPipes_events env h.1
  unfold Execute
  simp [h1, h2, h.2]

theorem WEXITSTATUS_eq (s : Nat) : WEXITSTATUS s = s / 256 % 256 := by
  unfold WEXITSTATUS
  have h1 : s / 256 % 256 = (s >>> 8) &&& (2 ^ 8 - 1) := by
    rw [Nat.and_pow_two_sub_one_eq_mod, Nat.shiftRight_eq_div_pow]
  have h2 : (0xff00 : Nat) = (2 ^ 8 - 1) <<< 8 := by decide
  rw [h1, h2]
  apply Nat.eq_of_testBit_eq
  intro i
  simp only [Nat.testBit_shiftRight, Nat.testBit_and, Nat.testBit_shiftLeft]
  simp

/-! ## Exit code -/

/-- C2: when the worker was launched and `Execute` returned, the exit code
handed over by `HandleOKCallback` is `WEXITSTATUS` of the wait status stored by
`waitpid`, that is `(s / 256) mod 256`; it lies in `0..255`; for a child that
exits normally with argument `c` (wait status `(c mod 256) * 256`) it is
`c mod 256`, so 42 is reported as 42 and 256 as 0. -/
theorem exit_code_is_low_byte (w : Worker) (env : Env) (hl : Launched env)
    (hr : (Execute w env).returned = true) :
    (HandleOKCallback (Execute w env).w).exitCode = WEXITSTATUS env.status ∧
    (HandleOKCallback (Execute w env).w).exitCode = env.status / 256 % 256 ∧
    (HandleOKCallback (Execute w env).w).exitCode ≤ 255 ∧
    (∀ c : Nat, env.status = c % 256 * 256 →
      (HandleOKCallback (Execute w env).w).exitCode = c % 256) ∧
    (env.status = 42 % 256 * 256 → (HandleOKCallback (Execute w env).w).exitCode = 42) ∧
    (env.status = 256 % 256 * 256 → (HandleOKCallback (Execute w env).w).exitCode = 0) := by
  rw [Execute_launched w env hl] at hr ⊢
  simp only at hr
  have hs : (HandleOKCallback
      { stdout := (loop env.fdnum env.selects env.stack (initLoop env)).st.stdout,
        stderr := (loop env.fdnum env.selects env.stack (initLoop env)).st.stderr,
        status := if (loop env.fdnum env.selects env.stack (initLoop env)).returned
                    then env.status else w.status }).exitCode = env.status / 256 % 256 := by
    simp [HandleOKCallback, hr, WEXITSTATUS_eq]
  simp only [hs, WEXITSTATUS_eq, true_and]
  refine ⟨by omega, ?_, ?_, ?_⟩
  · intro c hc
    rw [hc]
    omega
  · intro hc
    rw [hc]
  · intro hc
    rw [hc]

/-- C2, on a child that exits with code 42. -/
theorem exit_code_is_low_byte_witness :
    Launched envHello ∧ (Execute w0 envHello).returned = true ∧
      (HandleOKCallback (Execute w0 envHello).w).exitCode = 42 :=
  ⟨by decide, by decide,
    (exit_code_is_low_byte w0 envHello (by decide) (by decide)).2.2.2.2.1 (by decide)⟩

/-! ## Shape of the calls made by the loop -/

theorem readStdout_ofLoop (fdnum : Fd → Nat) (st : LoopState) :
    ∀ e ∈ (readStdout fdnum st).2, e.ofLoop := by
  simp only [readStdout]
  split_ifs <;> simp [Event.ofLoop]

theorem readStderr_ofLoop (fdnum : Fd → Nat) (st : LoopState) :
    ∀ e ∈ (readStderr fdnum st).2, e.ofLoop := by
  simp only [readStderr]
  split_ifs <;> simp [Event.ofLoop]

theorem iteration_ofLoop (fdnum : Fd → Nat) (rfds : FdSet) (st : LoopState) :
    ∀ e ∈ (iteration fdnum rfds st).2, e.ofLoop := by
  intro e he
  unfold iteration at he
  simp only [List.mem_append] at he
  rcases he with he | he
  · split_ifs at he
    · exact readStdout_ofLoop fdnum st e he
    · simp at he
  · split_ifs at he
    · exact readStderr_ofLoop fdnum _ e he
    · exact readStderr_ofLoop fdnum _ e he
    · simp at he
    · simp at he

theorem loop_ofLoop (fdnum : Fd → Nat) (sels : List SelectResult) :
    ∀ (mem : FdSet) (st : LoopState), ∀ e ∈ (loop fdnum sels mem st).events, e.ofLoop := by
  induction sels with
  | nil =>
    intro mem st e he
    unfold loop at he
    split_ifs at he
    · simp at he
    · simp [selectEvent] at he
      subst he
      simp [Event.ofLoop]
  | cons r rest ih =>
    intro mem st e he
    unfold loop at he
    split_ifs at he
    · simp at he
    · simp [selectEvent] at he
      subst he
      simp [Event.ofLoop]
    · simp only [List.mem_cons, List.mem_append] at he
      rcases he with he | he | he
      · subst he
        simp [selectEvent, Event.ofLoop]
      · exact iteration_ofLoop fdnum _ _ e he
      · exact ih _ _ e he

/-- Induction along the iterations of the loop: the four ways an iteration can
go (nothing to wait for, `select` never returns, `select` returns a
non-positive value, `select` returns a positive value and the reads are done). -/
theorem loop_induct (fdnum : Fd → Nat)
    (P : List SelectResult → LoopState → LoopResult → Prop)
    (hidle : ∀ sels st, st.idle fdnum → P sels st ⟨st, [], true⟩)
    (hblock : ∀ mem st, ¬ st.idle fdnum →
      P [] st ⟨st, [selectEvent fdnum mem st none], false⟩)
    (hfail : ∀ r rest mem st, ¬ st.idle fdnum → r.rc ≤ 0 →
      P (r :: rest) st ⟨st, [selectEvent fdnum mem st (some r)], true⟩)
    (hstep : ∀ r rest mem st, ¬ st.idle fdnum → 0 < r.rc →
      P rest (iteration fdnum (selected fdnum r mem st) st).1
        (loop fdnum rest (selected fdnum r mem st)
          (iteration fdnum (selected fdnum r mem st) st).1) →
      P (r :: rest) st
        ⟨(loop fdnum rest (selected fdnum r mem st)
            (iteration fdnum (selected fdnum r mem st) st).1).st,
         selectEvent fdnum mem st (some r) ::
           ((iteration fdnum (selected fdnum r mem st) st).2 ++
            (loop fdnum rest (selected fdnum r mem st)
              (iteration fdnum (selected fdnum r mem st) st).1).events),
         (loop fdnum rest (selected fdnum r mem st)
            (iteration fdnum (selected fdnum r mem st) st).1).returned⟩) :
    ∀ sels mem st, P sels st (loop fdnum sels mem st) := by
  intro sels
  induction sels with
  | nil =>
    intro mem st
    unfold loop
    split_ifs with h
    · exact hidle _ _ ((watch_nfds fdnum _ _).1 h)
    · exact hblock _ _ (fun hi => h ((watch_nfds fdnum _ _).2 hi))
  | cons r rest ih =>
    intro mem st
    unfold loop
    split_ifs with h h2
    · exact hidle _ _ ((watch_nfds fdnum _ _).1 h)
    · exact hfail _ _ _ _ (fun hi => h ((watch_nfds fdnum _ _).2 hi)) h2
    · exact hstep _ _ _ _ (fun hi => h ((watch_nfds fdnum _ _).2 hi)) (by omega) (ih _ _)

theorem loop_no_error (fdnum : Fd → Nat) (sels : List SelectResult) (mem : FdSet)
    (st : LoopState) : errorsSet (loop fdnum sels mem st).events = [] := by
  unfold errorsSet
  rw [List.filterMap_eq_nil_iff]
  intro e he
  have h := loop_ofLoop fdnum sels mem st e he
  cases e <;> simp_all [Event.ofLoop]

/-- The run when a pipe cannot be created, written out. -/
theorem Execute_pipes_fail (w : Worker) (env : Env) (h : PipesFail env) :
    Execute w env =
      { w := w, error := some "Cannot create pipes",
        trace := (createPipes env).1 ++ [Event.SetErrorMessage "Cannot create pipes"],
        rfds_active := env.stack_active, returned := true } := by
  have h2 : (createPipes env).2 = false := by
    cases h3 : (createPipes env).2
    · rfl
    · exact absurd ((createPipes_ok env).1 h3) (not_not.2 h)
  unfold Execute
  simp [h2]

/-- The run when the spawn fails, written out. -/
theorem Execute_spawn_fail (w : Worker) (env : Env) (h : ¬ PipesFail env)
    (hs : env.spawn_rc ≠ 0) :
    Execute w env =
      { w := w, error := some "Spawn failed",
        trace := [Event.pipe PipeId.stdin 0, Event.pipe PipeId.stdout 0,
          Event.pipe PipeId.stderr 0, Event.posix_spawnp env.spawn_rc,
          Event.SetErrorMessage "Spawn failed"],
        rfds_active := env.stack_active, returned := true } := by
  have h1 := (createPipes_ok env).2 h
  have h2 := createPipes_events env h
  unfold Execute
  simp [h1, h2, hs]

/-! ## Errors -/

/-- C4: `Execute` ends with the error "Cannot create pipes" exactly when one of
the three pipe creations fails, with the error "Spawn failed" exactly when the
pipes were created and the spawn call returned non-zero, and with no error in
every other run, whatever the wait status and the answers of `select` and
`read` are; the error messages set during the run are exactly the final one, so
at most one is set. -/
theorem errors_only_from_launch (w : Worker) (env : Env) :
    ((Execute w env).error = some "Cannot create pipes" ↔ PipesFail env) ∧
    ((Execute w env).error = some "Spawn failed" ↔ ¬ PipesFail env ∧ env.spawn_rc ≠ 0) ∧
    ((Execute w env).error = none ↔ ¬ PipesFail env ∧ env.spawn_rc = 0) ∧
    errorsSet (Execute w env).trace = (Execute w env).error.toList ∧
    (errorsSet (Execute w env).trace).length ≤ 1 := by
  have hn := createPipes_no_error env
  by_cases h1 : PipesFail env
  · rw [Execute_pipes_fail w env h1]
    unfold errorsSet at hn ⊢
    simp only [List.filterMap_append, hn]
    simp [h1]
  · by_cases h3 : env.spawn_rc = 0
    · rw [Execute_launched w env ⟨h1, h3⟩]
      have hl := loop_no_error env.fdnum env.selects env.stack (initLoop env)
      unfold errorsSet at hl ⊢
      simp only [List.filterMap_append, hl]
      split_ifs <;> simp [h1, h3, setupEvents]
    · rw [Execute_spawn_fail w env h1 h3]
      simp [errorsSet, h1, h3]

/-! ## Release of the pipes -/

/-- C5: when `posix_spawnp` fails after the three pipes were created, `Execute`
returns with the error "Spawn failed" and has closed none of the six pipe ends:
its calls are the three `pipe` calls, the spawn and `SetErrorMessage`. -/
theorem spawn_failure_leaves_pipes_open :
    (Execute w0 envSpawnFails).returned = true ∧
    (Execute w0 envSpawnFails).error = some "Spawn failed" ∧
    (Execute w0 envSpawnFails).trace =
      [Event.pipe PipeId.stdin 0, Event.pipe PipeId.stdout 0, Event.pipe PipeId.stderr 0,
       Event.posix_spawnp 11, Event.SetErrorMessage "Spawn failed"] ∧
    ∀ fd ∈ allFds, closes fd (Execute w0 envSpawnFails).trace = 0 := by
  decide

/-- C7: when `select` returns -1 while both read ends are open, `Execute`
leaves the loop, waits for the child and returns without an error; the four
ends closed after the spawn are closed once, the two read ends are never
closed. -/
theorem select_failure_leaves_read_ends_open :
    (Execute w0 envSelectFails).returned = true ∧
    (Execute w0 envSelectFails).error = none ∧
    closes (stdin_pipe READ) (Execute w0 envSelectFails).trace = 1 ∧
    closes (stdin_pipe WRITE) (Execute w0 envSelectFails).trace = 1 ∧
    closes (stdout_pipe WRITE) (Execute w0 envSelectFails).trace = 1 ∧
    closes (stderr_pipe WRITE) (Execute w0 envSelectFails).trace = 1 ∧
    closes (stdout_pipe READ) (Execute w0 envSelectFails).trace = 0 ∧
    closes (stderr_pipe READ) (Execute w0 envSelectFails).trace = 0 ∧
    (Execute w0 envSelectFails).rfds_active (envSelectFails.fdnum (stdout_pipe READ)) = true ∧
    (Execute w0 envSelectFails).rfds_active (envSelectFails.fdnum (stderr_pipe READ)) = true := by
  decide

/-! ## Invariants of the loop -/

/-- A property of every call of `readStdout` and `readStderr` holds for
every call of an iteration. -/
theorem iteration_events_forall (fdnum : Fd → Nat) (Q : Event → Prop)
    (hout : ∀ st, ∀ e ∈ (readStdout fdnum st).2, Q e)
    (herr : ∀ st, ∀ e ∈ (readStderr fdnum st).2, Q e) (rfds : FdSet) (st : LoopState) :
    ∀ e ∈ (iteration fdnum rfds st).2, Q e := by
  intro e he
  simp only [iteration, List.mem_append] at he
  rcases he with he | he
  · split_ifs at he
    · exact hout _ e he
    · simp at he
  · split_ifs at he
    · exact herr _ e he
    · exact herr _ e he
    · simp at he
    · simp at he

theorem iteration_ofRead (fdnum : Fd → Nat) (rfds : FdSet) (st : LoopState) :
    ∀ e ∈ (iteration fdnum rfds st).2, e.ofRead := by
  apply iteration_events_forall
  · intro st
    simp only [readStdout]
    split_ifs <;> simp [Event.ofRead]
  · intro st
    simp only [readStderr]
    split_ifs <;> simp [Event.ofRead]

theorem readStdout_onlyReadEnds (fdnum : Fd → Nat) (st : LoopState)
    (h : st.onlyReadEnds fdnum) : (readStdout fdnum st).1.onlyReadEnds fdnum := by
  intro fd hfd
  simp only [readStdout] at hfd
  split_ifs at hfd
  · exact h fd hfd
  · simp only [FD_CLR] at hfd
    split_ifs at hfd
    exact h fd hfd

theorem readStderr_onlyReadEnds (fdnum : Fd → Nat) (st : LoopState)
    (h : st.onlyReadEnds fdnum) : (readStderr fdnum st).1.onlyReadEnds fdnum := by
  intro fd hfd
  simp only [readStderr] at hfd
  split_ifs at hfd
  · exact h fd hfd
  · simp only [FD_CLR] at hfd
    split_ifs at hfd
    exact h fd hfd

/-- A property of the variables kept by `readStdout` and `readStderr` is kept
by an iteration. -/
theorem iteration_state_invariant (fdnum : Fd → Nat) (Q : LoopState → Prop)
    (hout : ∀ st, Q st → Q (readStdout fdnum st).1)
    (herr : ∀ st, Q st → Q (readStderr fdnum st).1) (rfds : FdSet) (st : LoopState) (h : Q st) :
    Q (iteration fdnum rfds st).1 := by
  simp only [iteration]
  split_ifs
  · exact herr _ (hout _ h)
  · exact herr _ h
  · exact hout _ h
  · exact h

/-- A property of the variables kept by `readStdout` and `readStderr` holds
when the loop is left. -/
theorem loop_state_invariant (fdnum : Fd → Nat) (Q : LoopState → Prop)
    (hout : ∀ st, Q st → Q (readStdout fdnum st).1)
    (herr : ∀ st, Q st → Q (readStderr fdnum st).1) :
    ∀ sels mem st, Q st → Q (loop fdnum sels mem st).st := by
  apply loop_induct fdnum (fun _ st res => Q st → Q res.st)
  · intro _ st _ h
    exact h
  · intro _ st _ h
    exact h
  · intro _ _ _ st _ _ h
    exact h
  · intro r rest mem st _ _ ih h
    exact ih (iteration_state_invariant fdnum Q hout herr _ st h)

theorem initLoop_onlyReadEnds (env : Env) (hv : FdsValid env.fdnum) :
    (initLoop env).onlyReadEnds env.fdnum := by
  intro fd hfd
  have hlt := fdsValid_lt env.fdnum hv fd
  simp only [initLoop, FD_SET, FD_ZERO, hlt, if_true] at hfd
  split_ifs at hfd with h1 h2
  · exact Or.inr (fdsValid_inj env.fdnum hv _ _ h1)
  · exact Or.inl (fdsValid_inj env.fdnum hv _ _ h2)

theorem idle_iff_members (fdnum : Fd → Nat) (st : LoopState) (h : st.onlyReadEnds fdnum) :
    st.idle fdnum ↔ members fdnum st.rfds_active = [] := by
  unfold LoopState.idle
  constructor
  · intro hi
    rw [List.eq_nil_iff_forall_not_mem]
    intro fd hfd
    rw [mem_members] at hfd
    rcases h fd hfd with h1 | h1 <;> subst h1 <;> simp_all
  · intro hm
    have h1 : ∀ fd, ¬ st.rfds_active (fdnum fd) = true := by
      intro fd hfd
      have := (mem_members fdnum st.rfds_active fd).2 hfd
      rw [hm] at this
      simp at this
    exact ⟨by simpa using h1 (stdout_pipe READ), by simpa using h1 (stderr_pipe READ)⟩

/-- The loop is left exactly when no read end remains in `rfds_active` or a
`select` returned a non-positive value; such a `select` is its last call. -/
theorem loop_returned_iff (fdnum : Fd → Nat) :
    ∀ sels mem st,
      ((loop fdnum sels mem st).returned = true ↔
        (loop fdnum sels mem st).st.idle fdnum ∨
          ∃ e ∈ (loop fdnum sels mem st).events, e.selectReturned (fun rc => rc ≤ 0)) ∧
      (∀ e ∈ (loop fdnum sels mem st).events, e.selectReturned (fun rc => rc ≤ 0) →
        ∃ pre, (loop fdnum sels mem st).events = pre ++ [e]) := by
  apply loop_induct fdnum (fun _ _ res =>
      (res.returned = true ↔
        res.st.idle fdnum ∨ ∃ e ∈ res.events, e.selectReturned (fun rc => rc ≤ 0)) ∧
      (∀ e ∈ res.events, e.selectReturned (fun rc => rc ≤ 0) →
        ∃ pre, res.events = pre ++ [e]))
  · intro _ st hi
    simp [hi]
  · intro mem st hi
    simp [hi, selectEvent, Event.selectReturned]
  · intro r rest mem st hi hr
    simp [hi, selectEvent, Event.selectReturned, hr]
  · intro r rest mem st hi hr ih
    have hit : ∀ e ∈ (iteration fdnum (selected fdnum r mem st) st).2, e.ofRead :=
      iteration_ofRead fdnum _ _
    have hsel : ¬ (selectEvent fdnum mem st (some r)).selectReturned (fun rc => rc ≤ 0) := by
      simp only [selectEvent, Event.selectReturned, Option.map]
      omega
    have hne : ∀ e ∈ (iteration fdnum (selected fdnum r mem st) st).2,
        ¬ e.selectReturned (fun rc => rc ≤ 0) := by
      intro e he hs
      have := hit e he
      cases e <;> simp_all [Event.ofRead, Event.selectReturned]
    constructor
    · rw [ih.1]
      constructor
      · rintro (h | ⟨e, he, hs⟩)
        · exact Or.inl h
        · exact Or.inr ⟨e, by simp [he], hs⟩
      · rintro (h | ⟨e, he, hs⟩)
        · exact Or.inl h
        · simp only [List.mem_cons, List.mem_append] at he
          rcases he with he | he | he
          · subst he
            exact absurd hs hsel
          · exact absurd hs (hne e he)
          · exact Or.inr ⟨e, he, hs⟩
    · intro e he hs
      simp only [List.mem_cons, List.mem_append] at he
      rcases he with he | he | he
      · subst he
        exact absurd hs hsel
      · exact absurd hs (hne e he)
      · obtain ⟨pre, hpre⟩ := ih.2 e he hs
        exact ⟨selectEvent fdnum mem st (some r) ::
          ((iteration fdnum (selected fdnum r mem st) st).2 ++ pre), by
            rw [hpre]
            simp⟩

/-- The four ways an iteration can go, by the read ends `select` left marked. -/
theorem iteration_cases (fdnum : Fd → Nat) (P : LoopState × List Event → Prop) (rfds : FdSet)
    (st : LoopState)
    (hboth : rfds (fdnum (stdout_pipe READ)) = true → rfds (fdnum (stderr_pipe READ)) = true →
      P ((readStderr fdnum (readStdout fdnum st).1).1,
        (readStdout fdnum st).2 ++ (readStderr fdnum (readStdout fdnum st).1).2))
    (hout : rfds (fdnum (stdout_pipe READ)) = true → rfds (fdnum (stderr_pipe READ)) = false →
      P ((readStdout fdnum st).1, (readStdout fdnum st).2))
    (herr : rfds (fdnum (stdout_pipe READ)) = false → rfds (fdnum (stderr_pipe READ)) = true →
      P ((readStderr fdnum st).1, (readStderr fdnum st).2))
    (hnone : rfds (fdnum (stdout_pipe READ)) = false →
      rfds (fdnum (stderr_pipe READ)) = false → P (st, [])) :
    P (iteration fdnum rfds st) := by
  cases ho : rfds (fdnum (stdout_pipe READ)) <;> cases he : rfds (fdnum (stderr_pipe READ))
  · have := hnone ho he
    simpa [iteration, FD_ISSET, ho, he] using this
  · have := herr ho he
    simpa [iteration, FD_ISSET, ho, he] using this
  · have := hout ho he
    simpa [iteration, FD_ISSET, ho, he] using this
  · have := hboth ho he
    simpa [iteration, FD_ISSET, ho, he] using this

theorem realloc_length (buf : List Byte) (n : Nat) : (realloc buf n).length = n := by
  simp [realloc]
  omega

theorem grow_slack (s : Stream) (res : ReadResult) : (s.grow res).Slack := by
  simp [Stream.Slack, Stream.grow, realloc_length]

theorem grow_ptr (s : Stream) (res : ReadResult) :
    (s.grow res).ptr = s.ptr + res.bytes.length := by
  cases res <;> simp [Stream.grow, ReadResult.rc, ReadResult.bytes]

theorem take_store_realloc (buf bs : List Byte) (p n : Nat) (hp : p + bs.length ≤ buf.length)
    (hn : p + bs.length ≤ n) :
    (realloc (buf.take p ++ bs ++ buf.drop (p + bs.length)) n).take (p + bs.length) =
      buf.take p ++ bs := by
  have hl : (buf.take p ++ bs ++ buf.drop (p + bs.length)).length = buf.length := by
    simp
    omega
  have h1 : (buf.take p ++ bs).length = p + bs.length := by
    simp
    omega
  unfold realloc
  rw [List.take_append_of_le_length (by rw [List.length_take, hl]; omega)]
  rw [List.take_take, Nat.min_eq_left hn, ← h1, List.take_left]

theorem grow_captured (s : Stream) (res : ReadResult) (h : s.Slack)
    (hc : res.rc ≤ ((s.len - s.ptr : Nat) : Int)) :
    (s.grow res).buf.take (s.grow res).ptr = s.buf.take s.ptr ++ res.bytes := by
  obtain ⟨h1, h2⟩ := h
  have hb : res.bytes.length ≤ s.len - s.ptr := by
    cases res <;> simp [ReadResult.rc, ReadResult.bytes] at hc ⊢
    omega
  have hr : res.rc.toNat = res.bytes.length := by
    cases res <;> simp [ReadResult.rc, ReadResult.bytes]
  simp only [Stream.grow, store, hr]
  rw [List.take_of_length_le hb]
  exact take_store_realloc s.buf res.bytes s.ptr _ (by omega) (by omega)

theorem readsWithinCount_append (a b : List Event) :
    ReadsWithinCount (a ++ b) ↔ ReadsWithinCount a ∧ ReadsWithinCount b := by
  unfold ReadsWithinCount
  exact List.forall_mem_append

theorem readsWithinCount_cons (e : Event) (l : List Event) :
    ReadsWithinCount (e :: l) ↔ e.withinCount ∧ ReadsWithinCount l := by
  simp [ReadsWithinCount]

theorem beforeStop_sysRead (reads : List ReadResult) (h : (sysRead reads).1.rc > 0) :
    beforeStop reads = (sysRead reads).1.bytes ++ beforeStop (sysRead reads).2 := by
  cases reads with
  | nil => simp [sysRead, ReadResult.rc] at h
  | cons r rs =>
    simp only [sysRead] at h ⊢
    simp [beforeStop, h]

theorem beforeStop_sysRead_stop (reads : List ReadResult) (h : ¬ (sysRead reads).1.rc > 0) :
    beforeStop reads = [] := by
  cases reads with
  | nil => rfl
  | cons r rs =>
    simp only [sysRead] at h
    simp [beforeStop, h]

/-- What `readStdout` does to the captured bytes. -/
theorem readStdout_capture (fdnum : Fd → Nat)
    (hne : fdnum (stdout_pipe READ) ≠ fdnum (stderr_pipe READ)) (st : LoopState)
    (ha : st.rfds_active (fdnum (stdout_pipe READ)) = true)
    (hs : st.stdout.Slack) (hc : ReadsWithinCount (readStdout fdnum st).2) :
    (readStdout fdnum st).1.stdout.Slack ∧
    (readStdout fdnum st).1.stderr = st.stderr ∧
    (readStdout fdnum st).1.stderr_reads = st.stderr_reads ∧
    (readStdout fdnum st).1.rfds_active (fdnum (stderr_pipe READ)) =
      st.rfds_active (fdnum (stderr_pipe READ)) ∧
    (readStdout fdnum st).1.stdout.captured =
      st.stdout.captured ++ (chunksRead (stdout_pipe READ) (readStdout fdnum st).2).flatten ∧
    chunksRead (stderr_pipe READ) (readStdout fdnum st).2 = [] ∧
    (readStdout fdnum st).1.stdout.total
        ((readStdout fdnum st).1.rfds_active (fdnum (stdout_pipe READ)))
        (readStdout fdnum st).1.stdout_reads =
      st.stdout.total (st.rfds_active (fdnum (stdout_pipe READ))) st.stdout_reads := by
  simp only [readStdout] at hc ⊢
  split_ifs at hc ⊢ with h
  · have hc1 : (sysRead st.stdout_reads).1.rc ≤
        ((st.stdout.len - st.stdout.ptr : Nat) : Int) := by
      simpa [ReadsWithinCount, Event.withinCount] using hc
    have hg := grow_captured st.stdout _ hs hc1
    refine ⟨grow_slack _ _, rfl, rfl, rfl, ?_, ?_, ?_⟩
    · simp [Stream.captured, hg, chunksRead]
    · simp [chunksRead, stdout_pipe, stderr_pipe]
    · simp [Stream.total, Stream.captured, hg, ha, beforeStop_sysRead _ h]
  · refine ⟨hs, rfl, rfl, ?_, ?_, ?_, ?_⟩
    · simp [FD_CLR, hne, hne.symm]
    · have : (sysRead st.stdout_reads).1.bytes = [] := by
        cases hr : (sysRead st.stdout_reads).1 with
        | stop n => rfl
        | chunk bs =>
          rw [hr] at h
          simp only [ReadResult.rc] at h
          have : bs.length = 0 := by omega
          simp [ReadResult.bytes, List.length_eq_zero.1 this]
      simp [chunksRead, this]
    · simp [chunksRead, stdout_pipe, stderr_pipe]
    · simp [Stream.total, FD_CLR, ha, beforeStop_sysRead_stop _ h]

/-- What `readStderr` does to the captured bytes. -/
theorem readStderr_capture (fdnum : Fd → Nat)
    (hne : fdnum (stdout_pipe READ) ≠ fdnum (stderr_pipe READ)) (st : LoopState)
    (ha : st.rfds_active (fdnum (stderr_pipe READ)) = true)
    (hs : st.stderr.Slack) (hc : ReadsWithinCount (readStderr fdnum st).2) :
    (readStderr fdnum st).1.stderr.Slack ∧
    (readStderr fdnum st).1.stdout = st.stdout ∧
    (readStderr fdnum st).1.stdout_reads = st.stdout_reads ∧
    (readStderr fdnum st).1.rfds_active (fdnum (stdout_pipe READ)) =
      st.rfds_active (fdnum (stdout_pipe READ)) ∧
    (readStderr fdnum st).1.stderr.captured =
      st.stderr.captured ++ (chunksRead (stderr_pipe READ) (readStderr fdnum st).2).flatten ∧
    chunksRead (stdout_pipe READ) (readStderr fdnum st).2 = [] ∧
    (readStderr fdnum st).1.stderr.total
        ((readStderr fdnum st).1.rfds_active (fdnum (stderr_pipe READ)))
        (readStderr fdnum st).1.stderr_reads =
      st.stderr.total (st.rfds_active (fdnum (stderr_pipe READ))) st.stderr_reads := by
  simp only [readStderr] at hc ⊢
  split_ifs at hc ⊢ with h
  · have hc1 : (sysRead st.stderr_reads).1.rc ≤
        ((st.stderr.len - st.stderr.ptr : Nat) : Int) := by
      simpa [ReadsWithinCount, Event.withinCount] using hc
    have hg := grow_captured st.stderr _ hs hc1
    refine ⟨grow_slack _ _, rfl, rfl, rfl, ?_, ?_, ?_⟩
    · simp [Stream.captured, hg, chunksRead]
    · simp [chunksRead, stderr_pipe, stdout_pipe]
    · simp [Stream.total, Stream.captured, hg, ha, beforeStop_sysRead _ h]
  · refine ⟨hs, rfl, rfl, ?_, ?_, ?_, ?_⟩
    · simp [FD_CLR, hne, hne.symm]
    · have : (sysRead st.stderr_reads).1.bytes = [] := by
        cases hr : (sysRead st.stderr_reads).1 with
        | stop n => rfl
        | chunk bs =>
          rw [hr] at h
          simp only [ReadResult.rc] at h
          have : bs.length = 0 := by omega
          simp [ReadResult.bytes, List.length_eq_zero.1 this]
      simp [chunksRead, this]
    · simp [chunksRead, stderr_pipe, stdout_pipe]
    · simp [Stream.total, FD_CLR, ha, beforeStop_sysRead_stop _ h]

theorem chunksRead_append (fd : Fd) (a b : List Event) :
    chunksRead fd (a ++ b) = chunksRead fd a ++ chunksRead fd b := by
  simp [chunksRead, List.filterMap_append]

/-- What one iteration does to the captured bytes, when the read ends left
marked by `select` are in the open set. -/
theorem iteration_capture (fdnum : Fd → Nat)
    (hne : fdnum (stdout_pipe READ) ≠ fdnum (stderr_pipe READ)) (rfds : FdSet) (st : LoopState)
    (hsub : ∀ fd, rfds (fdnum fd) = true → st.rfds_active (fdnum fd) = true)
    (hso : st.stdout.Slack) (hse : st.stderr.Slack) :
    ReadsWithinCount (iteration fdnum rfds st).2 →
    (iteration fdnum rfds st).1.stdout.Slack ∧ (iteration fdnum rfds st).1.stderr.Slack ∧
    (iteration fdnum rfds st).1.stdout.captured =
      st.stdout.captured ++
        (chunksRead (stdout_pipe READ) (iteration fdnum rfds st).2).flatten ∧
    (iteration fdnum rfds st).1.stderr.captured =
      st.stderr.captured ++
        (chunksRead (stderr_pipe READ) (iteration fdnum rfds st).2).flatten ∧
    (iteration fdnum rfds st).1.stdout.total
        ((iteration fdnum rfds st).1.rfds_active (fdnum (stdout_pipe READ)))
        (iteration fdnum rfds st).1.stdout_reads =
      st.stdout.total (st.rfds_active (fdnum (stdout_pipe READ))) st.stdout_reads ∧
    (iteration fdnum rfds st).1.stderr.total
        ((iteration fdnum rfds st).1.rfds_active (fdnum (stderr_pipe READ)))
        (iteration fdnum rfds st).1.stderr_reads =
      st.stderr.total (st.rfds_active (fdnum (stderr_pipe READ))) st.stderr_reads := by
  apply iteration_cases fdnum (fun it => ReadsWithinCount it.2 →
    it.1.stdout.Slack ∧ it.1.stderr.Slack ∧
    it.1.stdout.captured =
      st.stdout.captured ++ (chunksRead (stdout_pipe READ) it.2).flatten ∧
    it.1.stderr.captured =
      st.stderr.captured ++ (chunksRead (stderr_pipe READ) it.2).flatten ∧
    it.1.stdout.total (it.1.rfds_active (fdnum (stdout_pipe READ))) it.1.stdout_reads =
      st.stdout.total (st.rfds_active (fdnum (stdout_pipe READ))) st.stdout_reads ∧
    it.1.stderr.total (it.1.rfds_active (fdnum (stderr_pipe READ))) it.1.stderr_reads =
      st.stderr.total (st.rfds_active (fdnum (stderr_pipe READ))) st.stderr_reads)
  · intro ho he hc
    rw [readsWithinCount_append] at hc
    obtain ⟨a1, a2, a3, a4, a5, a6, a7⟩ := readStdout_capture fdnum hne st (hsub _ ho) hso hc.1
    obtain ⟨b1, b2, b3, b4, b5, b6, b7⟩ := readStderr_capture fdnum hne (readStdout fdnum st).1
      (by rw [a4]; exact hsub _ he) (by rw [a2]; exact hse) hc.2
    refine ⟨by rw [b2]; exact a1, b1, ?_, ?_, ?_, ?_⟩
    · simp [chunksRead_append, b2, a5, b6]
    · simp [chunksRead_append, b5, a2, a6]
    · rw [b2, b3, b4, a7]
    · rw [b7, a2, a3, a4]
  · intro ho _ hc
    obtain ⟨a1, a2, a3, a4, a5, a6, a7⟩ := readStdout_capture fdnum hne st (hsub _ ho) hso hc
    refine ⟨a1, by rw [a2]; exact hse, a5, ?_, a7, ?_⟩
    · simp [a2, a6]
    · rw [a2, a3, a4]
  · intro _ he hc
    obtain ⟨b1, b2, b3, b4, b5, b6, b7⟩ := readStderr_capture fdnum hne st (hsub _ he) hse hc
    refine ⟨by rw [b2]; exact hso, b1, ?_, b5, ?_, b7⟩
    · simp [b2, b6]
    · rw [b2, b3, b4]
  · intro _ _ _
    simp [hso, hse, chunksRead]

theorem watched_sub (fdnum : Fd → Nat) (hv : FdsValid fdnum) (r : SelectResult)
    (mem : FdSet) (st : LoopState) :
    ∀ fd, selected fdnum r mem st (fdnum fd) = true → st.rfds_active (fdnum fd) = true :=
  fun fd h => (selected_sub fdnum hv r mem st fd h).2

/-- What the loop does to the captured bytes. -/
theorem loop_capture (fdnum : Fd → Nat) (hv : FdsValid fdnum) :
    ∀ sels mem st, st.stdout.Slack → st.stderr.Slack →
      ReadsWithinCount (loop fdnum sels mem st).events →
      (loop fdnum sels mem st).st.stdout.Slack ∧ (loop fdnum sels mem st).st.stderr.Slack ∧
      (loop fdnum sels mem st).st.stdout.captured =
        st.stdout.captured ++
          (chunksRead (stdout_pipe READ) (loop fdnum sels mem st).events).flatten ∧
      (loop fdnum sels mem st).st.stderr.captured =
        st.stderr.captured ++
          (chunksRead (stderr_pipe READ) (loop fdnum sels mem st).events).flatten ∧
      (loop fdnum sels mem st).st.stdout.total
          ((loop fdnum sels mem st).st.rfds_active (fdnum (stdout_pipe READ)))
          (loop fdnum sels mem st).st.stdout_reads =
        st.stdout.total (st.rfds_active (fdnum (stdout_pipe READ))) st.stdout_reads ∧
      (loop fdnum sels mem st).st.stderr.total
          ((loop fdnum sels mem st).st.rfds_active (fdnum (stderr_pipe READ)))
          (loop fdnum sels mem st).st.stderr_reads =
        st.stderr.total (st.rfds_active (fdnum (stderr_pipe READ))) st.stderr_reads := by
  apply loop_induct fdnum (fun _ st res => st.stdout.Slack → st.stderr.Slack →
      ReadsWithinCount res.events →
      res.st.stdout.Slack ∧ res.st.stderr.Slack ∧
      res.st.stdout.captured =
        st.stdout.captured ++ (chunksRead (stdout_pipe READ) res.events).flatten ∧
      res.st.stderr.captured =
        st.stderr.captured ++ (chunksRead (stderr_pipe READ) res.events).flatten ∧
      res.st.stdout.total (res.st.rfds_active (fdnum (stdout_pipe READ))) res.st.stdout_reads =
        st.stdout.total (st.rfds_active (fdnum (stdout_pipe READ))) st.stdout_reads ∧
      res.st.stderr.total (res.st.rfds_active (fdnum (stderr_pipe READ))) res.st.stderr_reads =
        st.stderr.total (st.rfds_active (fdnum (stderr_pipe READ))) st.stderr_reads)
  · intro _ st _ hso hse _
    simp [hso, hse, chunksRead]
  · intro mem st _ hso hse _
    simp [hso, hse, chunksRead, selectEvent]
  · intro _ _ mem st _ _ hso hse _
    simp [hso, hse, chunksRead, selectEvent]
  · intro r rest mem st _ _ ih hso hse hc
    rw [readsWithinCount_cons, readsWithinCount_append] at hc
    obtain ⟨a1, a2, a3, a4, a5, a6⟩ :=
      iteration_capture fdnum (fdsValid_ne fdnum hv) _ st (watched_sub fdnum hv r mem st)
        hso hse hc.2.1
    obtain ⟨b1, b2, b3, b4, b5, b6⟩ := ih a1 a2 hc.2.2
    refine ⟨b1, b2, ?_, ?_, by rw [b5, a5], by rw [b6, a6]⟩
    · simp only [b3, a3]
      simp [chunksRead, selectEvent, List.filterMap_append]
    · simp only [b4, a4]
      simp [chunksRead, selectEvent, List.filterMap_append]

/-- A `select` that returns a non-positive value, and whatever would follow
it, leaves the variables of the loop as they were when it was called. -/
theorem loop_select_failure_keeps (fdnum : Fd → Nat) (f : SelectResult) (hf : f.rc ≤ 0)
    (post : List SelectResult) :
    ∀ pre mem st,
      (loop fdnum (pre ++ f :: post) mem st).st = (loop fdnum pre mem st).st := by
  intro pre
  induction pre with
  | nil =>
    intro mem st
    simp only [List.nil_append]
    unfold loop
    split_ifs <;> rfl
  | cons r rest ih =>
    intro mem st
    simp only [List.cons_append]
    unfold loop
    split_ifs
    · rfl
    · rfl
    · exact ih _ _

theorem initLoop_slack (env : Env) :
    (initLoop env).stdout.Slack ∧ (initLoop env).stderr.Slack := by
  simp [initLoop, Stream.Slack, malloc]

theorem Execute_chunksRead (w : Worker) (env : Env) (hl : Launched env) (fd : Fd) :
    chunksRead fd (Execute w env).trace =
      chunksRead fd (loop env.fdnum env.selects env.stack (initLoop env)).events := by
  rw [Execute_launched w env hl]
  simp only [chunksRead_append]
  split_ifs <;> simp [chunksRead, setupEvents]

theorem Execute_readsWithinCount (w : Worker) (env : Env) (hl : Launched env)
    (hc : ReadsWithinCount (Execute w env).trace) :
    ReadsWithinCount (loop env.fdnum env.selects env.stack (initLoop env)).events := by
  rw [Execute_launched w env hl] at hc
  simp only [readsWithinCount_append] at hc
  exact hc.1.2

/-! ## Captured bytes -/

/-- C1: in a launched run whose descriptors are distinct and below
`FD_SETSIZE` and in which no `read` returned more than the count it was given,
the stdout bytes `HandleOKCallback` hands over (the first
`stdout_ptr` bytes of `stdout_buf`) are the concatenation, in order, of the
chunks returned by the reads that `Execute` made on `stdout_pipe[READ]`, and
their number is the sum of the chunk lengths; the same holds for stderr.  When
a stream has left the open set, its captured bytes are everything its pipe
delivered before its first non-positive answer.  When a `select` returns a
non-positive value, the captured bytes are those held when it was called: the
run whose `select` answers stop just before it captures the same bytes. -/
theorem captured_is_concatenation_of_reads (w : Worker) (env : Env) (hl : Launched env)
    (hv : FdsValid env.fdnum) (hc : ReadsWithinCount (Execute w env).trace) :
    (HandleOKCallback (Execute w env).w).stdout =
      (chunksRead (stdout_pipe READ) (Execute w env).trace).flatten ∧
    (HandleOKCallback (Execute w env).w).stdout.length =
      ((chunksRead (stdout_pipe READ) (Execute w env).trace).map List.length).sum ∧
    (HandleOKCallback (Execute w env).w).stderr =
      (chunksRead (stderr_pipe READ) (Execute w env).trace).flatten ∧
    (HandleOKCallback (Execute w env).w).stderr.length =
      ((chunksRead (stderr_pipe READ) (Execute w env).trace).map List.length).sum ∧
    ((Execute w env).rfds_active (env.fdnum (stdout_pipe READ)) = false →
      (HandleOKCallback (Execute w env).w).stdout = beforeStop env.stdout_reads) ∧
    ((Execute w env).rfds_active (env.fdnum (stderr_pipe READ)) = false →
      (HandleOKCallback (Execute w env).w).stderr = beforeStop env.stderr_reads) ∧
    (∀ pre f post, env.selects = pre ++ f :: post → f.rc ≤ 0 →
      (HandleOKCallback (Execute w env).w).stdout =
        (HandleOKCallback (Execute w { env with selects := pre }).w).stdout ∧
      (HandleOKCallback (Execute w env).w).stderr =
        (HandleOKCallback (Execute w { env with selects := pre }).w).stderr) := by
  have hs := initLoop_slack env
  obtain ⟨_, _, c3, c4, c5, c6⟩ := loop_capture env.fdnum hv env.selects env.stack
    (initLoop env) hs.1 hs.2
    (Execute_readsWithinCount w env hl hc)
  have ho : (HandleOKCallback (Execute w env).w).stdout =
      (loop env.fdnum env.selects env.stack (initLoop env)).st.stdout.captured := by
    rw [Execute_launched w env hl]
    rfl
  have he : (HandleOKCallback (Execute w env).w).stderr =
      (loop env.fdnum env.selects env.stack (initLoop env)).st.stderr.captured := by
    rw [Execute_launched w env hl]
    rfl
  have ha : (Execute w env).rfds_active =
      (loop env.fdnum env.selects env.stack (initLoop env)).st.rfds_active := by
    rw [Execute_launched w env hl]
  have i1 : (initLoop env).stdout.captured = [] := by simp [initLoop, Stream.captured]
  have i2 : (initLoop env).stderr.captured = [] := by simp [initLoop, Stream.captured]
  have hO : (HandleOKCallback (Execute w env).w).stdout =
      (chunksRead (stdout_pipe READ) (Execute w env).trace).flatten := by
    rw [ho, c3, i1, Execute_chunksRead w env hl]
    simp
  have hE : (HandleOKCallback (Execute w env).w).stderr =
      (chunksRead (stderr_pipe READ) (Execute w env).trace).flatten := by
    rw [he, c4, i2, Execute_chunksRead w env hl]
    simp
  refine ⟨hO, ?_, hE, ?_, ?_, ?_, ?_⟩
  · rw [hO, List.length_flatten]
  · rw [hE, List.length_flatten]
  · intro hf
    rw [ha] at hf
    rw [hf] at c5
    simp only [Stream.total, i1] at c5
    rw [ho]
    simpa [initLoop, FD_SET] using c5
  · intro hf
    rw [ha] at hf
    rw [hf] at c6
    simp only [Stream.total, i2] at c6
    rw [he]
    simpa [initLoop, FD_SET] using c6
  · intro pre f post hsel hf
    have hl2 : Launched { env with selects := pre } := hl
    have hk := loop_select_failure_keeps env.fdnum f hf post pre env.stack (initLoop env)
    rw [← hsel] at hk
    have ho2 : (HandleOKCallback (Execute w { env with selects := pre }).w).stdout =
        (loop env.fdnum pre env.stack (initLoop env)).st.stdout.captured := by
      rw [Execute_launched w _ hl2]
      rfl
    have he2 : (HandleOKCallback (Execute w { env with selects := pre }).w).stderr =
        (loop env.fdnum pre env.stack (initLoop env)).st.stderr.captured := by
      rw [Execute_launched w _ hl2]
      rfl
    rw [ho, he, ho2, he2, hk]
    exact ⟨rfl, rfl⟩

/-- C1, on a child that writes "hi" to stdout and "e" to stderr. -/
theorem captured_is_concatenation_of_reads_witness :
    Launched envHello ∧ FdsValid envHello.fdnum ∧
    ReadsWithinCount (Execute w0 envHello).trace ∧
    (HandleOKCallback (Execute w0 envHello).w).stdout =
      (chunksRead (stdout_pipe READ) (Execute w0 envHello).trace).flatten ∧
    (chunksRead (stdout_pipe READ) (Execute w0 envHello).trace).flatten = [104, 105] :=
  ⟨by decide, by decide, by decide,
    (captured_is_concatenation_of_reads w0 envHello (by decide) (by decide) (by decide)).1,
    by decide⟩

theorem chunksRead_eq_readsOn (fd : Fd) (t : List Event) :
    chunksRead fd t = (readsOn fd t).map ReadResult.bytes := by
  induction t with
  | nil => rfl
  | cons e l ih =>
    cases e <;> simp_all [chunksRead, readsOn, List.filterMap_cons]
    split_ifs <;> simp

/-- The bytes captured by a launched run, by stream: the concatenation of the
chunks read and, once the stream has left the open set, all the pipe delivers
before its first non-positive answer. -/
theorem Execute_capture (w : Worker) (env : Env) (hl : Launched env)
    (hv : FdsValid env.fdnum) (hc : ReadsWithinCount (Execute w env).trace) :
    (HandleOKCallback (Execute w env).w).stdout =
      ((readsOn (stdout_pipe READ) (Execute w env).trace).map ReadResult.bytes).flatten ∧
    (HandleOKCallback (Execute w env).w).stderr =
      ((readsOn (stderr_pipe READ) (Execute w env).trace).map ReadResult.bytes).flatten ∧
    ((loop env.fdnum env.selects env.stack (initLoop env)).st.idle env.fdnum →
      (HandleOKCallback (Execute w env).w).stdout = beforeStop env.stdout_reads ∧
      (HandleOKCallback (Execute w env).w).stderr = beforeStop env.stderr_reads) := by
  have hs := initLoop_slack env
  obtain ⟨_, _, c3, c4, c5, c6⟩ := loop_capture env.fdnum hv env.selects env.stack
    (initLoop env) hs.1 hs.2
    (Execute_readsWithinCount w env hl hc)
  have ho : (HandleOKCallback (Execute w env).w).stdout =
      (loop env.fdnum env.selects env.stack (initLoop env)).st.stdout.captured := by
    rw [Execute_launched w env hl]
    rfl
  have he : (HandleOKCallback (Execute w env).w).stderr =
      (loop env.fdnum env.selects env.stack (initLoop env)).st.stderr.captured := by
    rw [Execute_launched w env hl]
    rfl
  have i1 : (initLoop env).stdout.captured = [] := by simp [initLoop, Stream.captured]
  have i2 : (initLoop env).stderr.captured = [] := by simp [initLoop, Stream.captured]
  refine ⟨?_, ?_, ?_⟩
  · rw [ho, c3, i1, ← chunksRead_eq_readsOn, Execute_chunksRead w env hl]
    simp
  · rw [he, c4, i2, ← chunksRead_eq_readsOn, Execute_chunksRead w env hl]
    simp
  · intro hi
    rw [hi.1] at c5
    rw [hi.2] at c6
    simp only [Stream.total, i1, i2] at c5 c6
    rw [ho, he]
    constructor
    · simpa [initLoop, FD_SET] using c5
    · simpa [initLoop, FD_SET] using c6

/-- A launched run that returned although no `select` returned a non-positive
value has emptied the open set. -/
theorem Execute_idle (w : Worker) (env : Env) (hl : Launched env)
    (hr : (Execute w env).returned = true)
    (hs : ∀ e ∈ (Execute w env).trace, ¬ e.selectReturned (fun rc => rc ≤ 0)) :
    (loop env.fdnum env.selects env.stack (initLoop env)).st.idle env.fdnum := by
  rw [Execute_launched w env hl] at hr hs
  simp only at hr
  rcases (loop_returned_iff env.fdnum env.selects env.stack (initLoop env)).1.1 hr with
    h | ⟨e, he, h⟩
  · exact h
  · exact absurd h (hs e (by simp [he]))

/-! ## Independence of the two streams -/

/-- C8: take two launched runs whose descriptors are distinct and below
`FD_SETSIZE` and in which no `read` returned more than its count.  If the reads
on stdout returned the same answers in both, the captured stdout bytes and
their number are the same in both; likewise for stderr.  If
both runs returned and no `select` returned a non-positive value in either,
then equal answers of the stdout pipe give equal captured stdout bytes and
lengths, whatever the stderr pipe and the `select` calls answer in the two
runs; likewise for stderr. -/
theorem streams_are_independent (w1 w2 : Worker) (env1 env2 : Env)
    (hl1 : Launched env1) (hl2 : Launched env2)
    (hv1 : FdsValid env1.fdnum) (hv2 : FdsValid env2.fdnum)
    (hc1 : ReadsWithinCount (Execute w1 env1).trace)
    (hc2 : ReadsWithinCount (Execute w2 env2).trace) :
    (readsOn (stdout_pipe READ) (Execute w1 env1).trace =
        readsOn (stdout_pipe READ) (Execute w2 env2).trace →
      (HandleOKCallback (Execute w1 env1).w).stdout =
        (HandleOKCallback (Execute w2 env2).w).stdout ∧
      (HandleOKCallback (Execute w1 env1).w).stdout.length =
        (HandleOKCallback (Execute w2 env2).w).stdout.length) ∧
    (readsOn (stderr_pipe READ) (Execute w1 env1).trace =
        readsOn (stderr_pipe READ) (Execute w2 env2).trace →
      (HandleOKCallback (Execute w1 env1).w).stderr =
        (HandleOKCallback (Execute w2 env2).w).stderr ∧
      (HandleOKCallback (Execute w1 env1).w).stderr.length =
        (HandleOKCallback (Execute w2 env2).w).stderr.length) ∧
    ((Execute w1 env1).returned = true → (Execute w2 env2).returned = true →
      (∀ e ∈ (Execute w1 env1).trace, ¬ e.selectReturned (fun rc => rc ≤ 0)) →
      (∀ e ∈ (Execute w2 env2).trace, ¬ e.selectReturned (fun rc => rc ≤ 0)) →
      (env1.stdout_reads = env2.stdout_reads →
        (HandleOKCallback (Execute w1 env1).w).stdout =
          (HandleOKCallback (Execute w2 env2).w).stdout ∧
        (HandleOKCallback (Execute w1 env1).w).stdout.length =
          (HandleOKCallback (Execute w2 env2).w).stdout.length) ∧
      (env1.stderr_reads = env2.stderr_reads →
        (HandleOKCallback (Execute w1 env1).w).stderr =
          (HandleOKCallback (Execute w2 env2).w).stderr ∧
        (HandleOKCallback (Execute w1 env1).w).stderr.length =
          (HandleOKCallback (Execute w2 env2).w).stderr.length)) := by
  obtain ⟨a1, a2, a3⟩ := Execute_capture w1 env1 hl1 hv1 hc1
  obtain ⟨b1, b2, b3⟩ := Execute_capture w2 env2 hl2 hv2 hc2
  refine ⟨?_, ?_, ?_⟩
  · intro h
    have : (HandleOKCallback (Execute w1 env1).w).stdout =
        (HandleOKCallback (Execute w2 env2).w).stdout := by rw [a1, b1, h]
    exact ⟨this, by rw [this]⟩
  · intro h
    have : (HandleOKCallback (Execute w1 env1).w).stderr =
        (HandleOKCallback (Execute w2 env2).w).stderr := by rw [a2, b2, h]
    exact ⟨this, by rw [this]⟩
  · intro hr1 hr2 hs1 hs2
    have i1 := a3 (Execute_idle w1 env1 hl1 hr1 hs1)
    have i2 := b3 (Execute_idle w2 env2 hl2 hr2 hs2)
    constructor
    · intro h
      have : (HandleOKCallback (Execute w1 env1).w).stdout =
          (HandleOKCallback (Execute w2 env2).w).stdout := by rw [i1.1, i2.1, h]
      exact ⟨this, by rw [this]⟩
    · intro h
      have : (HandleOKCallback (Execute w1 env1).w).stderr =
          (HandleOKCallback (Execute w2 env2).w).stderr := by rw [i1.2, i2.2, h]
      exact ⟨this, by rw [this]⟩

/-- C8, on two runs with the same stdout answers, other stderr answers and
another order of readiness. -/
theorem streams_are_independent_witness :
    Launched envHello ∧ Launched envHello2 ∧
    FdsValid envHello.fdnum ∧ FdsValid envHello2.fdnum ∧
    ReadsWithinCount (Execute w0 envHello).trace ∧
    ReadsWithinCount (Execute w0 envHello2).trace ∧
    (Execute w0 envHello).returned = true ∧ (Execute w0 envHello2).returned = true ∧
    envHello.stdout_reads = envHello2.stdout_reads ∧
    envHello.stderr_reads ≠ envHello2.stderr_reads ∧
    (HandleOKCallback (Execute w0 envHello).w).stdout =
      (HandleOKCallback (Execute w0 envHello2).w).stdout :=
  ⟨by decide, by decide, by decide, by decide, by decide, by decide, by decide, by decide,
    by decide, by decide,
    ((streams_are_independent w0 w0 envHello envHello2 (by decide) (by decide) (by decide)
      (by decide) (by decide) (by decide)).2.2 (by decide) (by decide) (by decide)
      (by decide)).1 (by decide) |>.1⟩
theorem readStdout_uses (fdnum : Fd → Nat) (st : LoopState) :
    ∀ e ∈ (readStdout fdnum st).2, ∀ fd, e.uses fd → fd = stdout_pipe READ := by
  simp only [readStdout]
  split_ifs <;> simp [Event.uses]

theorem readStderr_uses (fdnum : Fd → Nat) (st : LoopState) :
    ∀ e ∈ (readStderr fdnum st).2, ∀ fd, e.uses fd → fd = stderr_pipe READ := by
  simp only [readStderr]
  split_ifs <;> simp [Event.uses]


theorem iteration_uses (fdnum : Fd → Nat) (rfds : FdSet) (st : LoopState) :
    ∀ e ∈ (iteration fdnum rfds st).2, ∀ fd, e.uses fd → rfds (fdnum fd) = true := by
  apply iteration_cases fdnum
    (fun it => ∀ e ∈ it.2, ∀ fd, e.uses fd → rfds (fdnum fd) = true)
  · intro ho he e hm fd hu
    simp only [List.mem_append] at hm
    rcases hm with hm | hm
    · rw [readStdout_uses fdnum _ e hm fd hu]
      exact ho
    · rw [readStderr_uses fdnum _ e hm fd hu]
      exact he
  · intro ho _ e hm fd hu
    rw [readStdout_uses fdnum _ e hm fd hu]
    exact ho
  · intro _ he e hm fd hu
    rw [readStderr_uses fdnum _ e hm fd hu]
    exact he
  · intro _ _ e hm
    simp at hm

theorem iteration_shrinks (fdnum : Fd → Nat) (rfds : FdSet) (st : LoopState) :
    ∀ fd, (iteration fdnum rfds st).1.rfds_active fd = true → st.rfds_active fd = true := by
  apply iteration_state_invariant fdnum
    (fun s => ∀ fd, s.rfds_active fd = true → st.rfds_active fd = true)
  · intro s hs fd hfd
    simp only [readStdout] at hfd
    split_ifs at hfd
    · exact hs fd hfd
    · simp only [FD_CLR] at hfd
      split_ifs at hfd
      exact hs fd hfd
  · intro s hs fd hfd
    simp only [readStderr] at hfd
    split_ifs at hfd
    · exact hs fd hfd
    · simp only [FD_CLR] at hfd
      split_ifs at hfd
      exact hs fd hfd
  · intro fd h
    exact h

theorem loop_shrinks (fdnum : Fd → Nat) (sels : List SelectResult) (mem : FdSet)
    (st : LoopState) :
    ∀ fd, (loop fdnum sels mem st).st.rfds_active fd = true → st.rfds_active fd = true := by
  apply loop_state_invariant fdnum
    (fun s => ∀ fd, s.rfds_active fd = true → st.rfds_active fd = true)
  · intro s hs fd hfd
    simp only [readStdout] at hfd
    split_ifs at hfd
    · exact hs fd hfd
    · simp only [FD_CLR] at hfd
      split_ifs at hfd
      exact hs fd hfd
  · intro s hs fd hfd
    simp only [readStderr] at hfd
    split_ifs at hfd
    · exact hs fd hfd
    · simp only [FD_CLR] at hfd
      split_ifs at hfd
      exact hs fd hfd
  · intro fd h
    exact h

/-- A descriptor closed by `readStdout` is out of the open set afterwards. -/
theorem readStdout_closed (fdnum : Fd → Nat) (st : LoopState) (fd : Fd)
    (h : Event.close fd ∈ (readStdout fdnum st).2) :
    (readStdout fdnum st).1.rfds_active (fdnum fd) = false := by
  simp only [readStdout] at h ⊢
  split_ifs at h ⊢
  · simp at h
  · simp at h
    subst h
    simp [FD_CLR]

/-- A descriptor closed by `readStderr` is out of the open set afterwards. -/
theorem readStderr_closed (fdnum : Fd → Nat) (st : LoopState) (fd : Fd)
    (h : Event.close fd ∈ (readStderr fdnum st).2) :
    (readStderr fdnum st).1.rfds_active (fdnum fd) = false := by
  simp only [readStderr] at h ⊢
  split_ifs at h ⊢
  · simp at h
  · simp at h
    subst h
    simp [FD_CLR]

theorem readStderr_shrinks (fdnum : Fd → Nat) (st : LoopState) (fd : Nat)
    (h : st.rfds_active fd = false) : (readStderr fdnum st).1.rfds_active fd = false := by
  simp only [readStderr]
  split_ifs
  · exact h
  · simp only [FD_CLR]
    split_ifs
    · rfl
    · exact h

/-- A descriptor closed in an iteration is out of the open set afterwards. -/
theorem iteration_closed (fdnum : Fd → Nat) (rfds : FdSet) (st : LoopState) (fd : Fd)
    (h : Event.close fd ∈ (iteration fdnum rfds st).2) :
    (iteration fdnum rfds st).1.rfds_active (fdnum fd) = false := by
  revert h
  apply iteration_cases fdnum
    (fun it => Event.close fd ∈ it.2 → it.1.rfds_active (fdnum fd) = false)
  · intro _ _ h
    simp only [List.mem_append] at h
    rcases h with h | h
    · exact readStderr_shrinks fdnum _ _ (readStdout_closed fdnum st fd h)
    · exact readStderr_closed fdnum _ fd h
  · intro _ _ h
    exact readStdout_closed fdnum st fd h
  · intro _ _ h
    exact readStderr_closed fdnum st fd h
  · intro _ _ h
    simp at h

theorem firstBits_sub (nfds : Int) (s : FdSet) (n : Nat) (h : firstBits nfds s n = true) :
    s n = true := by
  simp only [firstBits, Bool.and_eq_true] at h
  exact h.2

theorem closes_append (fd : Fd) (a b : List Event) :
    closes fd (a ++ b) = closes fd a + closes fd b := by
  simp [closes]

/-- The `close` calls of `readStdout` on an open stdout. -/
theorem readStdout_conserve (fdnum : Fd → Nat)
    (hne : fdnum (stdout_pipe READ) ≠ fdnum (stderr_pipe READ)) (st : LoopState)
    (ha : st.rfds_active (fdnum (stdout_pipe READ)) = true) :
    closes (stdout_pipe READ) (readStdout fdnum st).2 +
        ((readStdout fdnum st).1.rfds_active (fdnum (stdout_pipe READ))).toNat = 1 ∧
    closes (stderr_pipe READ) (readStdout fdnum st).2 = 0 ∧
    (readStdout fdnum st).1.rfds_active (fdnum (stderr_pipe READ)) =
      st.rfds_active (fdnum (stderr_pipe READ)) := by
  simp only [readStdout]
  split_ifs
  · simp [closes, ha]
  · have hne2 := hne.symm
    simp only [stdout_pipe, stderr_pipe] at hne2
    simp [closes, FD_CLR, stdout_pipe, stderr_pipe, hne2]

/-- The `close` calls of `readStderr` on an open stderr. -/
theorem readStderr_conserve (fdnum : Fd → Nat)
    (hne : fdnum (stdout_pipe READ) ≠ fdnum (stderr_pipe READ)) (st : LoopState)
    (ha : st.rfds_active (fdnum (stderr_pipe READ)) = true) :
    closes (stderr_pipe READ) (readStderr fdnum st).2 +
        ((readStderr fdnum st).1.rfds_active (fdnum (stderr_pipe READ))).toNat = 1 ∧
    closes (stdout_pipe READ) (readStderr fdnum st).2 = 0 ∧
    (readStderr fdnum st).1.rfds_active (fdnum (stdout_pipe READ)) =
      st.rfds_active (fdnum (stdout_pipe READ)) := by
  simp only [readStderr]
  split_ifs
  · simp [closes, ha]
  · have hne2 := hne
    simp only [stdout_pipe, stderr_pipe] at hne2
    simp [closes, FD_CLR, stdout_pipe, stderr_pipe, hne2]

/-- Over an iteration, a read end is closed once exactly when it leaves the
open set. -/
theorem iteration_conserve (fdnum : Fd → Nat)
    (hne : fdnum (stdout_pipe READ) ≠ fdnum (stderr_pipe READ)) (rfds : FdSet) (st : LoopState)
    (hsub : ∀ fd, rfds (fdnum fd) = true → st.rfds_active (fdnum fd) = true) :
    closes (stdout_pipe READ) (iteration fdnum rfds st).2 +
        ((iteration fdnum rfds st).1.rfds_active (fdnum (stdout_pipe READ))).toNat =
      (st.rfds_active (fdnum (stdout_pipe READ))).toNat ∧
    closes (stderr_pipe READ) (iteration fdnum rfds st).2 +
        ((iteration fdnum rfds st).1.rfds_active (fdnum (stderr_pipe READ))).toNat =
      (st.rfds_active (fdnum (stderr_pipe READ))).toNat := by
  apply iteration_cases fdnum (fun it =>
    closes (stdout_pipe READ) it.2 + (it.1.rfds_active (fdnum (stdout_pipe READ))).toNat =
      (st.rfds_active (fdnum (stdout_pipe READ))).toNat ∧
    closes (stderr_pipe READ) it.2 + (it.1.rfds_active (fdnum (stderr_pipe READ))).toNat =
      (st.rfds_active (fdnum (stderr_pipe READ))).toNat)
  · intro ho he
    obtain ⟨a1, a2, a3⟩ := readStdout_conserve fdnum hne st (hsub _ ho)
    obtain ⟨b1, b2, b3⟩ := readStderr_conserve fdnum hne (readStdout fdnum st).1
      (by rw [a3]; exact hsub _ he)
    simp only [closes_append, b2, b3, a2, hsub _ ho, hsub _ he]
    simp only [Bool.toNat_true]
    omega
  · intro ho _
    obtain ⟨a1, a2, a3⟩ := readStdout_conserve fdnum hne st (hsub _ ho)
    simp only [a2, a3, hsub _ ho, Bool.toNat_true]
    omega
  · intro _ he
    obtain ⟨b1, b2, b3⟩ := readStderr_conserve fdnum hne st (hsub _ he)
    simp only [b2, b3, hsub _ he, Bool.toNat_true]
    omega
  · intro _ _
    simp [closes]

/-- With valid descriptors, over the loop a read end is closed once exactly
when it leaves the open set. -/
theorem loop_conserve (fdnum : Fd → Nat) (hv : FdsValid fdnum) :
    ∀ sels mem st,
      closes (stdout_pipe READ) (loop fdnum sels mem st).events +
          ((loop fdnum sels mem st).st.rfds_active (fdnum (stdout_pipe READ))).toNat =
        (st.rfds_active (fdnum (stdout_pipe READ))).toNat ∧
      closes (stderr_pipe READ) (loop fdnum sels mem st).events +
          ((loop fdnum sels mem st).st.rfds_active (fdnum (stderr_pipe READ))).toNat =
        (st.rfds_active (fdnum (stderr_pipe READ))).toNat := by
  apply loop_induct fdnum (fun _ st res =>
      closes (stdout_pipe READ) res.events +
          (res.st.rfds_active (fdnum (stdout_pipe READ))).toNat =
        (st.rfds_active (fdnum (stdout_pipe READ))).toNat ∧
      closes (stderr_pipe READ) res.events +
          (res.st.rfds_active (fdnum (stderr_pipe READ))).toNat =
        (st.rfds_active (fdnum (stderr_pipe READ))).toNat)
  · intro _ st _
    simp [closes]
  · intro mem st _
    simp [closes, selectEvent]
  · intro _ _ mem st _ _
    simp [closes, selectEvent]
  · intro r rest mem st _ _ ih
    obtain ⟨a1, a2⟩ := iteration_conserve fdnum (fdsValid_ne fdnum hv) _ st
      (watched_sub fdnum hv r mem st)
    have hc : ∀ fd l, closes fd (selectEvent fdnum mem st (some r) :: l) = closes fd l := by
      intro fd l
      simp [closes, selectEvent]
    simp only [hc, closes_append]
    omega

theorem closes_launch (fd : Fd) :
    closes fd ([Event.pipe PipeId.stdin 0, Event.pipe PipeId.stdout 0,
      Event.pipe PipeId.stderr 0, Event.posix_spawnp 0] ++ setupEvents) =
      if fd ∈ unusedEnds then 1 else 0 := by
  rcases fd with ⟨p, d⟩
  cases p <;> cases d <;> decide

/-- The `close` calls of a launched run, by descriptor. -/
theorem Execute_closes (w : Worker) (env : Env) (hl : Launched env) (fd : Fd) :
    closes fd (Execute w env).trace =
      (if fd ∈ unusedEnds then 1 else 0) +
        closes fd (loop env.fdnum env.selects env.stack (initLoop env)).events := by
  rw [Execute_launched w env hl]
  simp only
  rw [closes_append _ (_ ++ _) _, closes_append _ (_ ++ setupEvents) _, closes_launch]
  split_ifs <;> simp [closes]

theorem initLoop_active (env : Env) :
    (initLoop env).rfds_active (env.fdnum (stdout_pipe READ)) = true ∧
      (initLoop env).rfds_active (env.fdnum (stderr_pipe READ)) = true := by
  simp [initLoop, FD_SET]

/-! ## Use of the pipe ends -/

theorem pendingReads_le (rs : List ReadResult) : pendingReads rs ≤ positives rs := by
  induction rs with
  | nil => simp [pendingReads]
  | cons r rs ih =>
    unfold pendingReads positives
    rw [List.countP_cons]
    unfold positives at ih
    by_cases h : r.rc > 0
    · have hd : decide (0 < r.rc) = true := by simpa using h
      rw [if_pos h, if_pos hd]
      omega
    · rw [if_neg h]
      omega

theorem pendingReads_sysRead (rs : List ReadResult) (h : (sysRead rs).1.rc > 0) :
    pendingReads rs = pendingReads (sysRead rs).2 + 1 := by
  cases rs with
  | nil => simp [sysRead, ReadResult.rc] at h
  | cons r rs =>
    simp only [sysRead] at h ⊢
    simp [pendingReads, h]

/-- A read on an open stdout uses up one of the reads left. -/
theorem readStdout_readsLeft (fdnum : Fd → Nat)
    (hne : fdnum (stdout_pipe READ) ≠ fdnum (stderr_pipe READ)) (st : LoopState)
    (ha : st.rfds_active (fdnum (stdout_pipe READ)) = true) :
    (readStdout fdnum st).1.readsLeft fdnum + 1 ≤ st.readsLeft fdnum := by
  simp only [readStdout]
  split_ifs with h
  · simp only [LoopState.readsLeft, readsLeft, ha, if_true]
    rw [pendingReads_sysRead _ h]
    omega
  · simp only [LoopState.readsLeft, readsLeft, ha, if_true]
    simp only [FD_CLR, if_true, Bool.false_eq_true, if_false, if_neg hne.symm]
    omega

/-- A read on an open stderr uses up one of the reads left. -/
theorem readStderr_readsLeft (fdnum : Fd → Nat)
    (hne : fdnum (stdout_pipe READ) ≠ fdnum (stderr_pipe READ)) (st : LoopState)
    (ha : st.rfds_active (fdnum (stderr_pipe READ)) = true) :
    (readStderr fdnum st).1.readsLeft fdnum + 1 ≤ st.readsLeft fdnum := by
  simp only [readStderr]
  split_ifs with h
  · simp only [LoopState.readsLeft, readsLeft, ha, if_true]
    rw [pendingReads_sysRead _ h]
    omega
  · simp only [LoopState.readsLeft, readsLeft, ha, if_true]
    simp only [FD_CLR, if_true, Bool.false_eq_true, if_false, if_neg hne]
    omega

/-- An iteration that reads uses up at least one of the reads left; no
iteration adds any. -/
theorem iteration_readsLeft (fdnum : Fd → Nat)
    (hne : fdnum (stdout_pipe READ) ≠ fdnum (stderr_pipe READ)) (rfds : FdSet) (st : LoopState)
    (hsub : ∀ fd, rfds (fdnum fd) = true → st.rfds_active (fdnum fd) = true) :
    (iteration fdnum rfds st).1.readsLeft fdnum +
        (if rfds (fdnum (stdout_pipe READ)) = true ∨ rfds (fdnum (stderr_pipe READ)) = true
          then 1 else 0) ≤
      st.readsLeft fdnum := by
  apply iteration_cases fdnum (fun it => it.1.readsLeft fdnum +
      (if rfds (fdnum (stdout_pipe READ)) = true ∨ rfds (fdnum (stderr_pipe READ)) = true
        then 1 else 0) ≤
    st.readsLeft fdnum)
  · intro ho he
    have a := readStdout_readsLeft fdnum hne st (hsub _ ho)
    have a3 := (readStdout_conserve fdnum hne st (hsub _ ho)).2.2
    have b := readStderr_readsLeft fdnum hne (readStdout fdnum st).1
      (by rw [a3]; exact hsub _ he)
    simp only [ho, true_or, if_true]
    omega
  · intro ho _
    have a := readStdout_readsLeft fdnum hne st (hsub _ ho)
    simp only [ho, true_or, if_true]
    omega
  · intro _ he
    have b := readStderr_readsLeft fdnum hne st (hsub _ he)
    simp only [he, or_true, if_true]
    omega
  · intro ho he
    simp [ho, he]

theorem readingIterations_append (a b : List Event) :
    readingIterations (a ++ b) = readingIterations a + readingIterations b := by
  simp [readingIterations]

theorem returnedSelects_append (a b : List Event) :
    returnedSelects (a ++ b) = returnedSelects a + returnedSelects b := by
  simp [returnedSelects]

theorem iteration_no_select (fdnum : Fd → Nat) (rfds : FdSet) (st : LoopState) :
    readingIterations (iteration fdnum rfds st).2 = 0 ∧
      returnedSelects (iteration fdnum rfds st).2 = 0 := by
  have h := iteration_ofRead fdnum rfds st
  unfold readingIterations returnedSelects
  rw [List.countP_eq_zero, List.countP_eq_zero]
  constructor
  · intro e he
    have := h e he
    cases e <;> simp_all [Event.ofRead, Event.readingSelect]
  · intro e he
    have := h e he
    cases e <;> simp_all [Event.ofRead, Event.returnedSelect]

/-- With valid descriptors, a pipe end that `select` left marked is a read end
marked readable. -/
theorem marked_read_end (fdnum : Fd → Nat) (hv : FdsValid fdnum) (r : SelectResult)
    (mem : FdSet) (st : LoopState)
    (h : members fdnum (firstBits ((watch fdnum st.rfds_active mem).2 + 1)
      (selected fdnum r mem st)) ≠ []) :
    selected fdnum r mem st (fdnum (stdout_pipe READ)) = true ∨
      selected fdnum r mem st (fdnum (stderr_pipe READ)) = true := by
  obtain ⟨fd, hfd⟩ := List.exists_mem_of_ne_nil _ h
  rw [mem_members] at hfd
  have hs := firstBits_sub _ _ _ hfd
  rcases (selected_sub fdnum hv r mem st fd hs).1 with h1 | h1
  · exact Or.inl (h1 ▸ hs)
  · exact Or.inr (h1 ▸ hs)

/-- A reading iteration has a read end reported readable. -/
theorem reading_ready (fdnum : Fd → Nat) (hv : FdsValid fdnum) (mem : FdSet) (st : LoopState)
    (r : SelectResult) (h : (selectEvent fdnum mem st (some r)).readingSelect) :
    selected fdnum r mem st (fdnum (stdout_pipe READ)) = true ∨
      selected fdnum r mem st (fdnum (stderr_pipe READ)) = true := by
  simp only [selectEvent, Event.readingSelect, Option.map] at h
  exact marked_read_end fdnum hv r mem st h.2

/-- With valid descriptors, the reading iterations of the loop are paid by the
reads left. -/
theorem loop_reading_bound (fdnum : Fd → Nat) (hv : FdsValid fdnum) :
    ∀ sels mem st,
      readingIterations (loop fdnum sels mem st).events +
          (loop fdnum sels mem st).st.readsLeft fdnum ≤
        st.readsLeft fdnum := by
  apply loop_induct fdnum (fun _ st res =>
      readingIterations res.events + res.st.readsLeft fdnum ≤ st.readsLeft fdnum)
  · intro _ st _
    simp [readingIterations]
  · intro mem st _
    simp [readingIterations, selectEvent, Event.readingSelect]
  · intro r _ mem st _ hr
    have : ¬ 0 < r.rc := by omega
    simp [readingIterations, selectEvent, Event.readingSelect, this]
  · intro r rest mem st _ _ ih
    have h1 := iteration_readsLeft fdnum (fdsValid_ne fdnum hv) _ st
      (watched_sub fdnum hv r mem st)
    have h2 := (iteration_no_select fdnum (selected fdnum r mem st) st).1
    have h3 : readingIterations (selectEvent fdnum mem st (some r) ::
        ((iteration fdnum (selected fdnum r mem st) st).2 ++
          (loop fdnum rest (selected fdnum r mem st)
            (iteration fdnum (selected fdnum r mem st) st).1).events)) =
        (if (selectEvent fdnum mem st (some r)).readingSelect then 1 else 0) +
          readingIterations
            (loop fdnum rest (selected fdnum r mem st)
              (iteration fdnum (selected fdnum r mem st) st).1).events := by
      rw [← List.singleton_append, readingIterations_append, readingIterations_append, h2]
      simp only [readingIterations, List.countP_singleton, decide_eq_true_eq]
      omega
    simp only
    rw [h3]
    by_cases hs : (selectEvent fdnum mem st (some r)).readingSelect
    · have h4 := reading_ready fdnum hv mem st r hs
      rw [if_pos h4] at h1
      rw [if_pos hs]
      omega
    · rw [if_neg hs]
      have : (iteration fdnum (selected fdnum r mem st) st).1.readsLeft fdnum ≤
          st.readsLeft fdnum := by
        split_ifs at h1 <;> omega
      omega

/-- When a `select` never returns, every answer of `select` was used and a
read end is still in the open set. -/
theorem loop_blocked (fdnum : Fd → Nat) :
    ∀ sels mem st, (loop fdnum sels mem st).returned = false →
      returnedSelects (loop fdnum sels mem st).events = sels.length ∧
        ¬ (loop fdnum sels mem st).st.idle fdnum := by
  apply loop_induct fdnum (fun sels _ res => res.returned = false →
      returnedSelects res.events = sels.length ∧ ¬ res.st.idle fdnum)
  · intro _ _ _ h
    simp at h
  · intro mem st hi _
    exact ⟨by simp [returnedSelects, selectEvent, Event.returnedSelect], hi⟩
  · intro _ _ _ _ _ _ h
    simp at h
  · intro r rest mem st _ _ ih h
    obtain ⟨h1, h2⟩ := ih h
    refine ⟨?_, h2⟩
    have h3 := (iteration_no_select fdnum (selected fdnum r mem st) st).2
    simp only
    rw [← List.singleton_append, returnedSelects_append, returnedSelects_append, h3, h1]
    simp [returnedSelects, selectEvent, Event.returnedSelect]
    omega

theorem readStdout_progress (fdnum : Fd → Nat) (st : LoopState) :
    (∃ off count res, Event.read (stdout_pipe READ) off count res ∈ (readStdout fdnum st).2 ∧
        0 < res.rc) ∨
      Event.close (stdout_pipe READ) ∈ (readStdout fdnum st).2 := by
  simp only [readStdout]
  split_ifs with h
  · exact Or.inl ⟨_, _, _, List.mem_cons_self _ _, h⟩
  · exact Or.inr (by simp)

theorem readStderr_progress (fdnum : Fd → Nat) (st : LoopState) :
    (∃ off count res, Event.read (stderr_pipe READ) off count res ∈ (readStderr fdnum st).2 ∧
        0 < res.rc) ∨
      Event.close (stderr_pipe READ) ∈ (readStderr fdnum st).2 := by
  simp only [readStderr]
  split_ifs with h
  · exact Or.inl ⟨_, _, _, List.mem_cons_self _ _, h⟩
  · exact Or.inr (by simp)

/-- An iteration with a read end reported readable has a positive read or the
`close` of a read end among its calls. -/
theorem iteration_read_or_close (fdnum : Fd → Nat) (rfds : FdSet) (st : LoopState)
    (hr : rfds (fdnum (stdout_pipe READ)) = true ∨ rfds (fdnum (stderr_pipe READ)) = true) :
    (∃ fd off count res,
        Event.read fd off count res ∈ (iteration fdnum rfds st).2 ∧ 0 < res.rc) ∨
      ∃ fd, Event.close fd ∈ (iteration fdnum rfds st).2 := by
  revert hr
  apply iteration_cases fdnum (fun it =>
    rfds (fdnum (stdout_pipe READ)) = true ∨ rfds (fdnum (stderr_pipe READ)) = true →
    (∃ fd off count res, Event.read fd off count res ∈ it.2 ∧ 0 < res.rc) ∨
      ∃ fd, Event.close fd ∈ it.2)
  · intro _ _ _
    rcases readStdout_progress fdnum st with ⟨o, c, r, hm, hp⟩ | hm
    · exact Or.inl ⟨_, o, c, r, List.mem_append_left _ hm, hp⟩
    · exact Or.inr ⟨_, List.mem_append_left _ hm⟩
  · intro _ _ _
    rcases readStdout_progress fdnum st with ⟨o, c, r, hm, hp⟩ | hm
    · exact Or.inl ⟨_, o, c, r, hm, hp⟩
    · exact Or.inr ⟨_, hm⟩
  · intro _ _ _
    rcases readStderr_progress fdnum st with ⟨o, c, r, hm, hp⟩ | hm
    · exact Or.inl ⟨_, o, c, r, hm, hp⟩
    · exact Or.inr ⟨_, hm⟩
  · intro ho he h
    rw [ho, he] at h
    simp at h

/-- With valid descriptors, a reading iteration takes a positive read or
removes a read end from the open set. -/
theorem iteration_progress (fdnum : Fd → Nat) (hv : FdsValid fdnum) (r : SelectResult)
    (mem : FdSet) (st : LoopState)
    (h : members fdnum (firstBits ((watch fdnum st.rfds_active mem).2 + 1)
      (selected fdnum r mem st)) ≠ []) :
    (∃ fd off count res,
      Event.read fd off count res ∈ (iteration fdnum (selected fdnum r mem st) st).2 ∧
        0 < res.rc) ∨
    ∃ fd, st.rfds_active (fdnum fd) = true ∧
      (iteration fdnum (selected fdnum r mem st) st).1.rfds_active (fdnum fd) = false := by
  rcases iteration_read_or_close fdnum _ st (marked_read_end fdnum hv r mem st h) with
    hp | ⟨fd1, hc⟩
  · exact Or.inl hp
  · refine Or.inr ⟨fd1, ?_, iteration_closed fdnum _ st fd1 hc⟩
    exact watched_sub fdnum hv r mem st fd1
      (iteration_uses fdnum _ st _ hc fd1 (by simp [Event.uses]))

theorem createPipes_no_select (env : Env) :
    readingIterations (createPipes env).1 = 0 := by
  unfold readingIterations createPipes
  split_ifs <;> simp [Event.readingSelect]

/-- The reading iterations and the returned `select` calls of a launched run
are those of its loop. -/
theorem Execute_selects (w : Worker) (env : Env) (hl : Launched env) :
    readingIterations (Execute w env).trace =
      readingIterations (loop env.fdnum env.selects env.stack (initLoop env)).events ∧
    returnedSelects (Execute w env).trace =
      returnedSelects (loop env.fdnum env.selects env.stack (initLoop env)).events := by
  rw [Execute_launched w env hl]
  simp only [readingIterations_append, returnedSelects_append]
  constructor
  · split_ifs <;> simp [readingIterations, setupEvents, Event.readingSelect]
  · split_ifs <;> simp [returnedSelects, setupEvents, Event.returnedSelect]

theorem initLoop_readsLeft (env : Env) :
    (initLoop env).readsLeft env.fdnum ≤
      positives env.stdout_reads + positives env.stderr_reads + 2 := by
  have h1 := pendingReads_le env.stdout_reads
  have h2 := pendingReads_le env.stderr_reads
  obtain ⟨i1, i2⟩ := initLoop_active env
  simp only [LoopState.readsLeft, readsLeft, i1, i2, if_true]
  simp only [initLoop]
  omega

theorem waitpid_count (w : Worker) (env : Env) (hl : Launched env)
    (hr : (loop env.fdnum env.selects env.stack (initLoop env)).returned = true) :
    (Execute w env).trace.count Event.waitpid = 1 := by
  rw [Execute_launched w env hl]
  have h : (loop env.fdnum env.selects env.stack (initLoop env)).events.count
      Event.waitpid = 0 := by
    rw [List.count_eq_zero]
    intro hm
    exact loop_ofLoop _ _ _ _ _ hm
  simp only [hr, if_true, List.count_append, h]
  decide

theorem readingSelect_returned (e : Event) (h : e.readingSelect) : e.returnedSelect := by
  cases e with
  | select nfds watched ret =>
    cases ret with
    | none => simp [Event.readingSelect] at h
    | some v => simp [Event.returnedSelect]
  | _ => simp [Event.readingSelect] at h

theorem selectReturned_not_reading (e : Event) (h : e.selectReturned (fun rc => rc ≤ 0)) :
    e.returnedSelect ∧ ¬ e.readingSelect := by
  cases e with
  | select nfds watched ret =>
    cases ret with
    | none => simp [Event.selectReturned] at h
    | some v =>
      simp only [Event.selectReturned] at h
      simp only [Event.returnedSelect, Event.readingSelect, true_and]
      omega
  | _ => simp [Event.selectReturned] at h

theorem readsLeft_pos (fdnum : Fd → Nat) (st : LoopState) (h : ¬ st.idle fdnum) :
    1 ≤ st.readsLeft fdnum := by
  unfold LoopState.idle at h
  unfold LoopState.readsLeft readsLeft
  cases ho : st.rfds_active (fdnum (stdout_pipe READ)) <;>
    cases he : st.rfds_active (fdnum (stderr_pipe READ))
  · exact absurd ⟨ho, he⟩ h
  · simp
  · simp
  · simp
    omega

/-! ## Termination of the loop -/

/-- C10: with descriptors that are distinct and below `FD_SETSIZE`, the open
set only shrinks, over an iteration and over the whole loop; an iteration
whose `select` left a read end of the open set marked readable takes a positive
read or removes a descriptor from the open set; in every run the number of
reading iterations is at most the number of positive answers of both pipes plus
2; and in a launched run in which every `select` that returned started a
reading iteration and `select` answers at least that many times, `Execute`
returns with the open set empty, both read ends closed once and the child
waited for once. -/
theorem loop_terminates (w : Worker) (env : Env) (hv : FdsValid env.fdnum) :
    (∀ r mem st n,
      (iteration env.fdnum (selected env.fdnum r mem st) st).1.rfds_active n = true →
        st.rfds_active n = true) ∧
    (∀ sels mem st n, (loop env.fdnum sels mem st).st.rfds_active n = true →
      st.rfds_active n = true) ∧
    (∀ r mem st,
      members env.fdnum (firstBits ((watch env.fdnum st.rfds_active mem).2 + 1)
        (selected env.fdnum r mem st)) ≠ [] →
      (∃ fd off count res,
        Event.read fd off count res ∈
          (iteration env.fdnum (selected env.fdnum r mem st) st).2 ∧ 0 < res.rc) ∨
      ∃ fd, st.rfds_active (env.fdnum fd) = true ∧
        (iteration env.fdnum (selected env.fdnum r mem st) st).1.rfds_active (env.fdnum fd) =
          false) ∧
    readingIterations (Execute w env).trace ≤
      positives env.stdout_reads + positives env.stderr_reads + 2 ∧
    (Launched env →
      (∀ e ∈ (Execute w env).trace, e.returnedSelect → e.readingSelect) →
      positives env.stdout_reads + positives env.stderr_reads + 2 ≤ env.selects.length →
      (Execute w env).returned = true ∧
      members env.fdnum (Execute w env).rfds_active = [] ∧
      closes (stdout_pipe READ) (Execute w env).trace = 1 ∧
      closes (stderr_pipe READ) (Execute w env).trace = 1 ∧
      (Execute w env).trace.count Event.waitpid = 1) := by
  have hb := loop_reading_bound env.fdnum hv env.selects env.stack (initLoop env)
  have hi := initLoop_readsLeft env
  refine ⟨fun r mem st => iteration_shrinks env.fdnum _ st,
    fun sels mem st => loop_shrinks env.fdnum sels mem st,
    fun r mem st => iteration_progress env.fdnum hv r mem st, ?_, ?_⟩
  · by_cases h1 : PipesFail env
    · rw [Execute_pipes_fail w env h1]
      simp only [readingIterations_append, createPipes_no_select]
      simp [readingIterations, Event.readingSelect]
    · by_cases h3 : env.spawn_rc = 0
      · rw [(Execute_selects w env ⟨h1, h3⟩).1]
        omega
      · rw [Execute_spawn_fail w env h1 h3]
        simp [readingIterations, Event.readingSelect]
  · intro hl hall hlen
    obtain ⟨s1, s2⟩ := Execute_selects w env hl
    have hsub : ∀ e ∈ (loop env.fdnum env.selects env.stack (initLoop env)).events,
        e ∈ (Execute w env).trace := by
      intro e he
      rw [Execute_launched w env hl]
      simp [he]
    have heq : readingIterations (loop env.fdnum env.selects env.stack (initLoop env)).events =
        returnedSelects (loop env.fdnum env.selects env.stack (initLoop env)).events := by
      unfold readingIterations returnedSelects
      apply List.countP_congr
      intro e he
      simp only [decide_eq_true_eq]
      exact ⟨readingSelect_returned e, hall e (hsub e he)⟩
    have hret : (loop env.fdnum env.selects env.stack (initLoop env)).returned = true := by
      cases hr : (loop env.fdnum env.selects env.stack (initLoop env)).returned
      · exfalso
        obtain ⟨b1, b2⟩ := loop_blocked env.fdnum env.selects env.stack (initLoop env) hr
        have b3 := readsLeft_pos env.fdnum _ b2
        omega
      · rfl
    have hidle : (loop env.fdnum env.selects env.stack (initLoop env)).st.idle env.fdnum := by
      rcases (loop_returned_iff env.fdnum env.selects env.stack (initLoop env)).1.1 hret with
        h | ⟨e, he, h⟩
      · exact h
      · exfalso
        obtain ⟨h1, h2⟩ := selectReturned_not_reading e h
        exact h2 (hall e (hsub e he) h1)
    have hO := loop_state_invariant env.fdnum (LoopState.onlyReadEnds env.fdnum)
      (readStdout_onlyReadEnds env.fdnum) (readStderr_onlyReadEnds env.fdnum)
      env.selects env.stack (initLoop env) (initLoop_onlyReadEnds env hv)
    obtain ⟨c1, c2⟩ := loop_conserve env.fdnum hv env.selects env.stack (initLoop env)
    obtain ⟨i1, i2⟩ := initLoop_active env
    rw [hidle.1, i1] at c1
    rw [hidle.2, i2] at c2
    have n1 : stdout_pipe READ ∉ unusedEnds := by decide
    have n2 : stderr_pipe READ ∉ unusedEnds := by decide
    refine ⟨?_, ?_, ?_, ?_, waitpid_count w env hl hret⟩
    · rw [Execute_launched w env hl]
      exact hret
    · rw [Execute_launched w env hl]
      exact (idle_iff_members env.fdnum _ hO).1 hidle
    · rw [Execute_closes w env hl, if_neg n1]
      simpa using c1
    · rw [Execute_closes w env hl, if_neg n2]
      simpa using c2

/-- C10, on a run of five reading iterations for three positive answers. -/
theorem loop_terminates_witness :
    FdsValid envHello2.fdnum ∧ Launched envHello2 ∧
    (∀ e ∈ (Execute w0 envHello2).trace, e.returnedSelect → e.readingSelect) ∧
    positives envHello2.stdout_reads + positives envHello2.stderr_reads + 2 ≤
      envHello2.selects.length ∧
    (Execute w0 envHello2).returned = true ∧
    members envHello2.fdnum (Execute w0 envHello2).rfds_active = [] ∧
    closes (stdout_pipe READ) (Execute w0 envHello2).trace = 1 ∧
    closes (stderr_pipe READ) (Execute w0 envHello2).trace = 1 ∧
    (Execute w0 envHello2).trace.count Event.waitpid = 1 :=
  ⟨by decide, by decide, by decide, by decide,
    (loop_terminates w0 envHello2 (by decide)).2.2.2.2 (by decide) (by decide) (by decide)⟩

end PosixSpawn
